import Mathlib

/-!
Verification of the archive-status reconciliation and migration engine of the
Iconik maintenance-CLI repository.

The development shallowly embeds the three relevant scripts:

* `FixCollection` — `scripts/fix-collection-archive-status.ts`
  (`scanCollection`, `classifyAsset`, phase-3 executor of `processCollection`);
* `HealthCheck` — the embedded `verify-collection-archive-health.ts` script
  (`scanCollection`, `classifyAsset`, `applyFixes`, the dedup loop of `main`);
* `ArchiveToStorage` — the embedded `archive-assets-to-storage.ts` script
  (`archiveAsset`, the six-step idempotent migration workflow).

Remote requests and the local filesystem are modelled as explicit environment
and state records; the operations the code performs are emitted into
operation traces so that read/write sequences can be compared. TypeScript
`string` fields that may be absent are modelled as `String` with `""` for
the absent value (matching the `x || "default"` idiom of the code).
Failure of a remote request is modelled by `Option`/oracle environments.
-/

namespace FixCollection

/-- The `item.archive_status || "UNKNOWN"` idiom. -/
def orUnknown (s : String) : String := if s = "" then "UNKNOWN" else s

/-- The `item.title || "(no title)"` idiom. -/
def orNoTitle (s : String) : String := if s = "" then "(no title)" else s

/-- One element of a paginated `collections/<id>/contents/` listing. -/
structure Entry where
  object_type : String
  id : String
  archive_status : String
  title : String
deriving DecidableEq, Repr

/-- A scan hit, as pushed onto `targets` by `scanCollection`. -/
structure Target where
  id : String
  title : String
deriving DecidableEq, Repr

/-- Remote contents listing per collection id: `none` models a request
failure (the code catches it and abandons the subtree), `some entries`
models the concatenation of all pages of the listing. -/
structure ScanEnv where
  contents : String → Option (List Entry)

/-- `scanCollection` of fix-collection-archive-status.ts, with an explicit
recursion-depth fuel: the source recurses into child collections with no
depth bound, so the embedding returns `none` when the nesting depth
exceeds the supplied fuel (`none` = the unbounded recursion of the source
would still be descending at that depth). A failed contents request yields
the empty contribution for that subtree, as in the source's `catch`. -/
def scanCollection (env : ScanEnv) : Nat → String → Option (List Target)
  | 0, _ => none
  | Nat.succ n, cid =>
    match env.contents cid with
    | none => some []
    | some entries =>
      entries.foldl
        (fun acc e =>
          match acc with
          | none => none
          | some ts =>
            if e.object_type = "collections" then
              match scanCollection env n e.id with
              | none => none
              | some sub => some (ts ++ sub)
            else if e.object_type = "assets" then
              if orUnknown e.archive_status ≠ "ARCHIVED" then
                some (ts ++ [⟨e.id, orNoTitle e.title⟩])
              else some ts
            else some ts)
        (some [])

/-- A rank function witnessing that the container graph reachable in `env`
is acyclic: every child collection listed by a container has strictly
smaller rank. -/
def ChildRanked (env : ScanEnv) (rank : String → Nat) : Prop :=
  ∀ cid entries, env.contents cid = some entries →
    ∀ e ∈ entries, e.object_type = "collections" → rank e.id < rank cid

/-- A file record as returned by `files/v1/assets/<id>/files/`. -/
structure FileRec where
  id : String
  storage_id : String
  directory_path : String
  name : String
  status : String
deriving DecidableEq, Repr

/-- A storage record as returned by `files/v1/storages/<id>/`. -/
structure StorageRec where
  id : String
  name : String
  purpose : String
deriving DecidableEq, Repr

/-- A format record as returned by `files/v1/assets/<id>/formats/`. -/
structure FormatRec where
  id : String
  name : String
  archive_status : String
deriving DecidableEq, Repr

/-- The `AssetToFix` record produced by `classifyAsset`. -/
structure AssetToFix where
  id : String
  title : String
  formatIds : List String
  fileUpdates : List (String × String)
deriving DecidableEq, Repr

/-- `path.join(mount, dir, name)` with the `dir || ""` idiom: an empty
middle segment is dropped. -/
def pjoin3 (a b c : String) : String :=
  if b = "" then a ++ "/" ++ c else a ++ "/" ++ b ++ "/" ++ c

/-- `isTargetArchiveStorage`: a cached `getStorage` result (possibly `none`
for a failed lookup) qualifies only with purpose `ARCHIVE` and, when a
name filter was supplied, an exact name match. -/
def isTargetArchiveStorage (filter : Option String) :
    Option StorageRec → Bool
  | none => false
  | some s =>
    if s.purpose ≠ "ARCHIVE" then false
    else
      match filter with
      | some f => s.name = f
      | none => true

/-- The per-asset fetches `classifyAsset` performs and the collaborators it
consults. `files`/`formats` are `none` when the request throws. -/
structure ClassifyEnv where
  mountPath : String
  storageNameFilter : Option String
  storages : String → Option StorageRec
  diskExists : String → Bool
  files : Option (List FileRec)
  formats : Option (List FormatRec)

/-- `classifyAsset` either throws (an uncaught `iconikRequest` rejection,
recorded as a skip by the caller) or returns `some fix` / `none`. -/
inductive ClassifyResult where
  | thrown
  | ok (r : Option AssetToFix)
deriving DecidableEq, Repr

/-- The `for (const f of files)` loop of `classifyAsset`: `none` models the
early `return null` taken when a target-archive-storage file is missing
from the local mount. -/
def classifyFiles (env : ClassifyEnv) :
    List FileRec → Bool → List (String × String) →
    Option (Bool × List (String × String))
  | [], onArchive, fileUpdates => some (onArchive, fileUpdates)
  | f :: rest, onArchive, fileUpdates =>
    if isTargetArchiveStorage env.storageNameFilter (env.storages f.storage_id) then
      if ¬ env.diskExists (pjoin3 env.mountPath f.directory_path f.name) then none
      else
        classifyFiles env rest true
          (fileUpdates ++ if f.status = "MISSING" then [(f.id, f.name)] else [])
    else classifyFiles env rest onArchive fileUpdates

/-- `classifyAsset` of fix-collection-archive-status.ts. -/
def classifyAsset (env : ClassifyEnv) (assetId : String) : ClassifyResult :=
  match env.files with
  | none => .thrown
  | some files =>
    if files.length = 0 then .ok none
    else
      match classifyFiles env files false [] with
      | none => .ok none
      | some (onArchive, fileUpdates) =>
        if ¬ onArchive then .ok none
        else
          match env.formats with
          | none => .thrown
          | some formats =>
            .ok (some ⟨assetId, "",
              (formats.filter (fun fmt => fmt.archive_status ≠ "ARCHIVED")).map
                (fun fmt => fmt.id),
              fileUpdates⟩)

/-- A write request issued by phase 3 of `processCollection`. -/
inductive WOp where
  | patchAssetArchived (assetId : String)
  | patchFormatArchived (assetId fmtId : String)
  | patchFileClosed (assetId fileId : String)
deriving DecidableEq, Repr

/-- The phase-3 counters of `processCollection`. -/
structure FixCounts where
  assets : Nat
  formats : Nat
  files : Nat
  errors : Nat
deriving DecidableEq, Repr

def FixCounts.zero : FixCounts := ⟨0, 0, 0, 0⟩

def FixCounts.add (a b : FixCounts) : FixCounts :=
  ⟨a.assets + b.assets, a.formats + b.formats, a.files + b.files,
    a.errors + b.errors⟩

/-- One iteration of the `for (const fmtId of asset.formatIds)` loop.
`σ w = true` means the request `w` fails when issued; in dry-run mode no
request is issued, so `σ` is never consulted. The trace records issued
requests. -/
def processFmt (live : Bool) (σ : WOp → Bool) (aid : String)
    (acc : FixCounts × List WOp) (fmtId : String) : FixCounts × List WOp :=
  let fop := WOp.patchFormatArchived aid fmtId
  if live then
    if σ fop then ({ acc.1 with errors := acc.1.errors + 1 }, acc.2 ++ [fop])
    else ({ acc.1 with formats := acc.1.formats + 1 }, acc.2 ++ [fop])
  else ({ acc.1 with formats := acc.1.formats + 1 }, acc.2)

/-- One iteration of the `for (const file of asset.fileUpdates)` loop. -/
def processFile (live : Bool) (σ : WOp → Bool) (aid : String)
    (acc : FixCounts × List WOp) (fu : String × String) : FixCounts × List WOp :=
  let fop := WOp.patchFileClosed aid fu.1
  if live then
    if σ fop then ({ acc.1 with errors := acc.1.errors + 1 }, acc.2 ++ [fop])
    else ({ acc.1 with files := acc.1.files + 1 }, acc.2 ++ [fop])
  else ({ acc.1 with files := acc.1.files + 1 }, acc.2)

/-- One iteration of the phase-3 item loop: patch the asset, then its
formats, then its file records. A failing asset patch runs `continue`,
skipping the format and file sub-steps of that item. -/
def processAsset (live : Bool) (σ : WOp → Bool) (a : AssetToFix) :
    FixCounts × List WOp :=
  let aop := WOp.patchAssetArchived a.id
  if live && σ aop then
    ({ FixCounts.zero with errors := 1 }, [aop])
  else
    let start : FixCounts × List WOp :=
      ({ FixCounts.zero with assets := 1 }, if live then [aop] else [])
    let afterFmts := a.formatIds.foldl (processFmt live σ a.id) start
    a.fileUpdates.foldl (processFile live σ a.id) afterFmts

/-- Phase 3 of `processCollection` over the `toFix` batch. -/
def processFixes (live : Bool) (σ : WOp → Bool) (toFix : List AssetToFix) :
    FixCounts × List WOp :=
  toFix.foldl
    (fun acc a =>
      let r := processAsset live σ a
      (acc.1.add r.1, acc.2 ++ r.2))
    (FixCounts.zero, [])

end FixCollection

/-- A two-branch tree in which asset `X` sits under both child collections. -/
def dupEnv : FixCollection.ScanEnv where
  contents := fun cid =>
    if cid = "root" then
      some [⟨"collections", "subA", "", "A"⟩, ⟨"collections", "subB", "", "B"⟩]
    else if cid = "subA" then
      some [⟨"assets", "X", "NOT_ARCHIVED", "clip"⟩]
    else if cid = "subB" then
      some [⟨"assets", "X", "NOT_ARCHIVED", "clip"⟩]
    else some []

/-- A cyclic container graph: collection `r` lists itself as a child. -/
def loopEnv : FixCollection.ScanEnv where
  contents := fun cid =>
    if cid = "r" then some [⟨"collections", "r", "", ""⟩] else some []

/-- A 12-deep chain of collections `c0 → c1 → … → c11`, with one
non-archived asset at the bottom. -/
def chainEnv : FixCollection.ScanEnv where
  contents := fun cid =>
    if cid = "c11" then some [⟨"assets", "deep", "NOT_ARCHIVED", "bottom"⟩]
    else if cid = "c0" then some [⟨"collections", "c1", "", ""⟩]
    else if cid = "c1" then some [⟨"collections", "c2", "", ""⟩]
    else if cid = "c2" then some [⟨"collections", "c3", "", ""⟩]
    else if cid = "c3" then some [⟨"collections", "c4", "", ""⟩]
    else if cid = "c4" then some [⟨"collections", "c5", "", ""⟩]
    else if cid = "c5" then some [⟨"collections", "c6", "", ""⟩]
    else if cid = "c6" then some [⟨"collections", "c7", "", ""⟩]
    else if cid = "c7" then some [⟨"collections", "c8", "", ""⟩]
    else if cid = "c8" then some [⟨"collections", "c9", "", ""⟩]
    else if cid = "c9" then some [⟨"collections", "c10", "", ""⟩]
    else if cid = "c10" then some [⟨"collections", "c11", "", ""⟩]
    else some []

/-- A two-level acyclic tree used to witness termination of the scan:
`p` holds collection `q` and one asset, `q` holds one asset. -/
def smallTreeEnv : FixCollection.ScanEnv where
  contents := fun cid =>
    if cid = "p" then
      some [⟨"collections", "q", "", ""⟩, ⟨"assets", "a1", "ARCHIVING", "t1"⟩]
    else if cid = "q" then
      some [⟨"assets", "a2", "NOT_ARCHIVED", "t2"⟩]
    else some []

/-- A rank function for `smallTreeEnv`. -/
def smallTreeRank : String → Nat := fun cid => if cid = "p" then 1 else 0

/-- Concrete input for C10: storage `s1` is a target archive storage, file
`f1` exists on the mount but `f2` does not. -/
def c10env : FixCollection.ClassifyEnv where
  mountPath := "/mnt"
  storageNameFilter := none
  storages := fun sid => if sid = "s1" then some ⟨"s1", "Vault", "ARCHIVE"⟩ else none
  diskExists := fun p => p = "/mnt/dir/a.mov"
  files := some [⟨"f1", "s1", "dir", "a.mov", "CLOSED"⟩,
                 ⟨"f2", "s1", "dir", "b.mov", "CLOSED"⟩]
  formats := some []

/-- A failure oracle failing exactly the item-status patch of asset `A`. -/
def c6sigma : FixCollection.WOp → Bool :=
  fun w => w = FixCollection.WOp.patchAssetArchived "A"

/-- The concrete two-item `toFix` batch for C6. -/
def c6batch : List FixCollection.AssetToFix :=
  [⟨"A", "", ["f1"], [("u1", "a.mov")]⟩, ⟨"B", "", ["g1"], []⟩]

namespace HealthCheck

/-- A `NonArchivedAsset` scan hit of verify-collection-archive-health.ts. -/
structure HAsset where
  id : String
  title : String
  collectionStatus : String
  collectionTitle : String
deriving DecidableEq, Repr

/-- The action union type of `AssetClassification`. -/
inductive Action where
  | fix_metadata
  | reset_failed
  | stale_cache
  | skip
deriving DecidableEq, Repr

/-- The `AssetClassification` record. -/
structure AssetClassification where
  id : String
  title : String
  collectionTitle : String
  collectionStatus : String
  realStatus : String
  onArchive : Bool
  archiveFileExists : Bool
  storages : List String
  action : Action
  formatIds : List String
  fileUpdates : List (String × String)
deriving DecidableEq, Repr

/-- Per-asset fetches of the health-check `classifyAsset` and the
collaborators it consults. A fetch returning `none` models a thrown
request; `fetchAsset` returns the `archive_status` field of the asset
record (with `""` for an absent field). -/
structure ClassifyEnv where
  mountPath : String
  storageNameFilter : Option String
  fetchAsset : String → Option String
  fetchFiles : String → Option (List FixCollection.FileRec)
  fetchFormats : String → Option (List FixCollection.FormatRec)
  storages : String → Option FixCollection.StorageRec
  diskExists : String → Bool

/-- Mutable evidence accumulated by the `for (const f of files)` loop. -/
structure FileScanAcc where
  storages : List String
  onArchive : Bool
  archiveFileExists : Bool
  fileUpdates : List (String × String)
deriving DecidableEq, Repr

/-- One iteration of the file loop of the health-check `classifyAsset`. -/
def classifyFile (env : ClassifyEnv) (acc : FileScanAcc)
    (f : FixCollection.FileRec) : FileScanAcc :=
  let storage := env.storages f.storage_id
  let sName :=
    match storage with
    | some s => if s.name = "" then f.storage_id else s.name
    | none => f.storage_id
  let sPurpose :=
    match storage with
    | some s => if s.purpose = "" then "UNKNOWN" else s.purpose
    | none => "UNKNOWN"
  let acc := { acc with
    storages := acc.storages ++ [sName ++ "(" ++ sPurpose ++ "):" ++ f.status] }
  if FixCollection.isTargetArchiveStorage env.storageNameFilter storage then
    { acc with
      onArchive := true
      archiveFileExists := acc.archiveFileExists ||
        env.diskExists
          (FixCollection.pjoin3 env.mountPath f.directory_path f.name)
      fileUpdates := acc.fileUpdates ++
        (if f.status = "MISSING" then [(f.id, f.name)] else []) }
  else acc

/-- The evidence-gathering and decision part of the health-check
`classifyAsset`: the code path taken when the authoritative fetch
succeeded with a status other than `ARCHIVED` (`real`). -/
def classifyBody (env : ClassifyEnv) (a : HAsset) (real : String) :
    AssetClassification :=
  let acc :=
    match env.fetchFiles a.id with
    | none => (⟨[], false, false, []⟩ : FileScanAcc)
    | some files => files.foldl (classifyFile env) ⟨[], false, false, []⟩
  let formatIds :=
    match env.fetchFormats a.id with
    | none => []
    | some fmts =>
      (fmts.filter (fun fmt => fmt.archive_status ≠ "ARCHIVED")).map
        (fun fmt => fmt.id)
  let action :=
    if acc.onArchive && acc.archiveFileExists then Action.fix_metadata
    else if real = "FAILED_TO_ARCHIVE" || real = "ARCHIVING" then
      Action.reset_failed
    else Action.skip
  ⟨a.id, a.title, a.collectionTitle, a.collectionStatus,
    real, acc.onArchive, acc.archiveFileExists, acc.storages, action,
    formatIds, acc.fileUpdates⟩

/-- `classifyAsset` of verify-collection-archive-health.ts. -/
def classifyAsset (env : ClassifyEnv) (a : HAsset) : AssetClassification :=
  let base : AssetClassification :=
    ⟨a.id, a.title, a.collectionTitle, a.collectionStatus,
      "FETCH_ERROR", false, false, [], .skip, [], []⟩
  match env.fetchAsset a.id with
  | none => base
  | some st =>
    let real := FixCollection.orUnknown st
    if real = "ARCHIVED" then
      { base with realStatus := real, action := .stale_cache }
    else classifyBody env a real

/-- A write request issued by `applyFixes` (patched status included). -/
inductive HOp where
  | patchAsset (assetId status : String)
  | patchFormat (assetId fmtId status : String)
  | patchFile (assetId fileId status : String)
deriving DecidableEq, Repr

/-- The asset id a write request targets. -/
def HOp.assetId : HOp → String
  | .patchAsset a _ => a
  | .patchFormat a _ _ => a
  | .patchFile a _ _ => a

/-- Remote status fields touched by `applyFixes`, keyed by asset id,
(asset id, format id) and (asset id, file id). -/
structure HState where
  assetStatus : List (String × String)
  formatStatus : List ((String × String) × String)
  fileStatus : List ((String × String) × String)
deriving DecidableEq, Repr

/-- Set the value of a key in an association list (insert if absent). -/
def setAssoc {α : Type} [DecidableEq α] (k : α) (v : String) :
    List (α × String) → List (α × String)
  | [] => [(k, v)]
  | (k', v') :: rest =>
    if k' = k then (k, v) :: rest else (k', v') :: setAssoc k v rest

/-- Look up a key in an association list. -/
def getAssoc {α : Type} [DecidableEq α] (k : α) :
    List (α × String) → Option String
  | [] => none
  | (k', v) :: rest => if k' = k then some v else getAssoc k rest

/-- The executor's running state: remote state, issued-request trace and
the `totalFixed`/`totalReset`/`totalErrors` counters. -/
structure ExecSt where
  st : HState
  trace : List HOp
  fixed : Nat
  reset : Nat
  errors : Nat
deriving DecidableEq, Repr

/-- One iteration of a `for (const fmtId of asset.formatIds)` loop of
`applyFixes` (`status` is `ARCHIVED` in the fix loop, `NOT_ARCHIVED` in
the reset loop). `σ w = true` means request `w` fails when issued. -/
def fmtStep (live : Bool) (σ : HOp → Bool) (aid status : String)
    (acc : ExecSt) (fid : String) : ExecSt :=
  if live then
    let fop := HOp.patchFormat aid fid status
    if σ fop then
      { acc with trace := acc.trace ++ [fop], errors := acc.errors + 1 }
    else
      { acc with
        trace := acc.trace ++ [fop]
        st := { acc.st with
          formatStatus := setAssoc (aid, fid) status acc.st.formatStatus } }
  else acc

/-- One iteration of the `for (const file of asset.fileUpdates)` loop of
the fix-metadata branch of `applyFixes`. -/
def fileStep (live : Bool) (σ : HOp → Bool) (aid : String)
    (acc : ExecSt) (fu : String × String) : ExecSt :=
  if live then
    let fop := HOp.patchFile aid fu.1 "CLOSED"
    if σ fop then
      { acc with trace := acc.trace ++ [fop], errors := acc.errors + 1 }
    else
      { acc with
        trace := acc.trace ++ [fop]
        st := { acc.st with
          fileStatus := setAssoc (aid, fu.1) "CLOSED" acc.st.fileStatus } }
  else acc

/-- One iteration of the fix-metadata loop of `applyFixes`: a failing
asset patch is caught by the outer `try` and skips the format/file
sub-steps of that item. -/
def fixOne (live : Bool) (σ : HOp → Bool) (acc : ExecSt)
    (a : AssetClassification) : ExecSt :=
  let aop := HOp.patchAsset a.id "ARCHIVED"
  if live && σ aop then
    { acc with trace := acc.trace ++ [aop], errors := acc.errors + 1 }
  else
    let acc1 :=
      if live then
        { acc with
          trace := acc.trace ++ [aop]
          st := { acc.st with
            assetStatus := setAssoc a.id "ARCHIVED" acc.st.assetStatus } }
      else acc
    let acc2 := a.formatIds.foldl (fmtStep live σ a.id "ARCHIVED") acc1
    let acc3 := a.fileUpdates.foldl (fileStep live σ a.id) acc2
    { acc3 with fixed := acc3.fixed + 1 }

/-- One iteration of the reset-failed loop of `applyFixes`. -/
def resetOne (live : Bool) (σ : HOp → Bool) (acc : ExecSt)
    (a : AssetClassification) : ExecSt :=
  let aop := HOp.patchAsset a.id "NOT_ARCHIVED"
  if live && σ aop then
    { acc with trace := acc.trace ++ [aop], errors := acc.errors + 1 }
  else
    let acc1 :=
      if live then
        { acc with
          trace := acc.trace ++ [aop]
          st := { acc.st with
            assetStatus := setAssoc a.id "NOT_ARCHIVED" acc.st.assetStatus } }
      else acc
    let acc2 := a.formatIds.foldl (fmtStep live σ a.id "NOT_ARCHIVED") acc1
    { acc2 with reset := acc2.reset + 1 }

/-- `applyFixes` of verify-collection-archive-health.ts: the fix-metadata
group first, then the reset-failed group; `stale_cache` and `skip`
classifications are never acted on. -/
def applyFixes (live : Bool) (σ : HOp → Bool)
    (classified : List AssetClassification) (s : HState) : ExecSt :=
  let init : ExecSt := ⟨s, [], 0, 0, 0⟩
  let afterFix :=
    (classified.filter (fun c => c.action = Action.fix_metadata)).foldl
      (fixOne live σ) init
  (classified.filter (fun c => c.action = Action.reset_failed)).foldl
    (resetOne live σ) afterFix

/-- The dedup loop of `main`: keep the first occurrence of each id. -/
def dedupGo : List String → List HAsset → List HAsset
  | _, [] => []
  | seen, a :: rest =>
    if a.id ∈ seen then dedupGo seen rest
    else a :: dedupGo (a.id :: seen) rest

/-- `main`'s deduplication of `allNonArchived` into `unique`. -/
def dedupById (l : List HAsset) : List HAsset := dedupGo [] l

/-- The health-check `scanCollection` (same traversal as the
fix-collection one; status counts, used only for console reporting, are
not modelled). -/
def scanCollection (env : FixCollection.ScanEnv) (collTitle : String) :
    Nat → String → Option (List HAsset)
  | 0, _ => none
  | Nat.succ n, cid =>
    match env.contents cid with
    | none => some []
    | some entries =>
      entries.foldl
        (fun acc e =>
          match acc with
          | none => none
          | some ts =>
            if e.object_type = "collections" then
              match scanCollection env collTitle n e.id with
              | none => none
              | some sub => some (ts ++ sub)
            else if e.object_type = "assets" then
              if FixCollection.orUnknown e.archive_status ≠ "ARCHIVED" then
                some (ts ++ [⟨e.id, FixCollection.orNoTitle e.title,
                  FixCollection.orUnknown e.archive_status, collTitle⟩])
              else some ts
            else some ts)
        (some [])

/-- Phase 1 of `main`: scan each root and concatenate into
`allNonArchived` (root titles given as the second pair component). -/
def scanAll (env : FixCollection.ScanEnv) (fuel : Nat)
    (roots : List (String × String)) : Option (List HAsset) :=
  roots.foldl
    (fun acc r =>
      match acc with
      | none => none
      | some l =>
        match scanCollection env r.2 fuel r.1 with
        | none => none
        | some sub => some (l ++ sub))
    (some [])

/-- The candidate set the health-check pipeline classifies: the scan
output of all roots, deduplicated by item id. -/
def healthCandidates (env : FixCollection.ScanEnv) (fuel : Nat)
    (roots : List (String × String)) : Option (List HAsset) :=
  (scanAll env fuel roots).map dedupById

end HealthCheck

/-- A classification environment whose authoritative item fetch returns
`ARCHIVED`; placements, storages and the local mount are empty/failing. -/
def c1env : HealthCheck.ClassifyEnv where
  mountPath := "/m"
  storageNameFilter := none
  fetchAsset := fun _ => some "ARCHIVED"
  fetchFiles := fun _ => none
  fetchFormats := fun _ => none
  storages := fun _ => none
  diskExists := fun _ => false

/-- A concrete `fix_metadata` classification targeting asset `B`. -/
def c1fix : HealthCheck.AssetClassification :=
  ⟨"B", "t", "C", "NOT_ARCHIVED", "NOT_ARCHIVED", true, true, [],
    HealthCheck.Action.fix_metadata, ["f1"], []⟩

/-- An environment whose authoritative item fetch returns `ARCHIVED` and
whose placement list is empty (the item is on no archive storage). -/
def c4envA : HealthCheck.ClassifyEnv where
  mountPath := "/m"
  storageNameFilter := none
  fetchAsset := fun _ => some "ARCHIVED"
  fetchFiles := fun _ => some []
  fetchFormats := fun _ => some []
  storages := fun _ => none
  diskExists := fun _ => false

/-- An environment whose authoritative item fetch returns
`FAILED_TO_ARCHIVE`, with no placements and two components, one of which
is already `ARCHIVED`. -/
def c4envB : HealthCheck.ClassifyEnv where
  mountPath := "/m"
  storageNameFilter := none
  fetchAsset := fun _ => some "FAILED_TO_ARCHIVE"
  fetchFiles := fun _ => some []
  fetchFormats := fun _ => some [⟨"f1", "PROXY", "NOT_ARCHIVED"⟩,
                                 ⟨"f2", "ORIGINAL", "ARCHIVED"⟩]
  storages := fun _ => none
  diskExists := fun _ => false

/-- The candidate item whose remediation C4 examines. -/
def c4asset : HealthCheck.HAsset := ⟨"A", "t", "NOT_ARCHIVED", "C"⟩

/-- Remote state before executing the reset for `c4asset`: component `f2`
is already `ARCHIVED`. -/
def c4state : HealthCheck.HState :=
  ⟨[("A", "FAILED_TO_ARCHIVE")],
   [(("A", "f1"), "NOT_ARCHIVED"), (("A", "f2"), "ARCHIVED")], []⟩

namespace ArchiveToStorage

/-- A file record (`files/v1/assets/<id>/files/`). -/
structure AFile where
  id : String
  storage_id : String
  directory_path : String
  name : String
  size : Nat
deriving DecidableEq, Repr

/-- A file-set record (`files/v1/assets/<id>/file_sets/`). -/
structure AFileSet where
  id : String
  storage_id : String
  format_id : String
  base_dir : String
  name : String
  status : String
deriving DecidableEq, Repr

/-- A format record. -/
structure AFormat where
  id : String
  name : String
  archive_status : String
deriving DecidableEq, Repr

/-- Remote and on-disk state read and mutated by `archiveAsset` for one
asset. `disk` maps full disk paths (on either mount) to byte sizes;
`nextId` feeds the ids of records created by POST requests. -/
structure AState where
  assetStatus : String
  formats : List AFormat
  fileSets : List AFileSet
  files : List AFile
  disk : List (String × Nat)
  nextId : Nat
deriving DecidableEq, Repr

/-- Collaborators and oracles of archive-assets-to-storage.ts: storage
lookups, component lookups per format (`none` = the request throws, which
the code catches), the size `copyFileSync` writes at the destination for
a given source size (a faithful copy writes the source size), and
failure oracles for the file-set DELETE requests (caught and logged as a
warning) and for disk unlinks (uncaught, aborting the item). PATCH and
POST requests are modelled as succeeding; the code does not catch their
failures, which would abort the item before any later operation. -/
structure AEnv where
  sourceMountPath : String
  archiveMountPath : String
  archiveStorageId : String
  storages : String → Option FixCollection.StorageRec
  components : String → Option (List String)
  copyWrite : Nat → Nat
  deleteFails : String → Bool
  unlinkFails : String → Bool

/-- Remote requests and filesystem calls, in program order. -/
inductive AOp where
  | getAsset
  | getFiles
  | getFileSets
  | getFormats
  | getStorage (id : String)
  | getComponents (fmtId : String)
  | statExists (path : String)
  | statSize (path : String)
  | mkdirOp (path : String)
  | copyOp (src dst : String)
  | postFileSet
  | postFile
  | patchAssetStatus (status : String)
  | patchFormatStatus (fmtId status : String)
  | deleteFileSet (fsId : String)
  | unlinkOp (path : String)
deriving DecidableEq, Repr

/-- `archiveAsset`'s outcome: `ok b` for `return b`, `thrown` for an
uncaught exception (a failing `unlinkSync`). -/
inductive AOutcome where
  | ok (b : Bool)
  | thrown
deriving DecidableEq, Repr

/-- Result of a run: final state, operation trace, outcome. -/
structure ARes where
  state : AState
  trace : List AOp
  out : AOutcome
deriving DecidableEq, Repr

/-- Look up a path on disk. -/
def diskGet : List (String × Nat) → String → Option Nat
  | [], _ => none
  | (q, m) :: rest, p => if q = p then some m else diskGet rest p

/-- Write a path on disk (update or append). -/
def diskSet : List (String × Nat) → String → Nat → List (String × Nat)
  | [], p, n => [(p, n)]
  | (q, m) :: rest, p, n =>
    if q = p then (p, n) :: rest else (q, m) :: diskSet rest p n

/-- Remove a path from disk. -/
def diskDel : List (String × Nat) → String → List (String × Nat)
  | [], _ => []
  | (q, m) :: rest, p =>
    if q = p then diskDel rest p else (q, m) :: diskDel rest p

/-- `path.dirname`. -/
def dirname (p : String) : String :=
  String.intercalate "/" ((p.splitOn "/").dropLast)

/-- The `base_dir`/`directory_path` trailing-slash normalisation
(`dirPath.endsWith("/") ? dirPath : dirPath + "/"`). -/
def ensureSlash (d : String) : String :=
  if d.endsWith "/" then d else d ++ "/"

/-- `getStorage` with its module-level cache (the cache only affects
whether a GET request is issued; the lookup result is `env.storages`). -/
def getStorageC (cache : List String) (sid : String) :
    List String × List AOp :=
  if sid ∈ cache then (cache, []) else (sid :: cache, [AOp.getStorage sid])

/-- The storage-GET requests the delete-file-sets loop issues (cache
misses only); they depend only on the file sets and the cache. -/
def deleteLoopGets : List AFileSet → List String → List AOp
  | [], _ => []
  | fs :: rest, cache =>
    (getStorageC cache fs.storage_id).2 ++
      deleteLoopGets rest (getStorageC cache fs.storage_id).1

/-- `discoverSourceStorages`: collect the ids of non-archive-purpose
storages other than the destination, threading the storage cache.
Returns (source storage ids, cache, ops). -/
def discoverSourceStorages (env : AEnv) :
    List AFile → List String → List String →
    List String × List String × List AOp
  | [], srcIds, cache => (srcIds, cache, [])
  | f :: rest, srcIds, cache =>
    let c := getStorageC cache f.storage_id
    let add : Bool :=
      match env.storages f.storage_id with
      | some s =>
        decide (¬ s.purpose = "ARCHIVE") &&
          decide (¬ f.storage_id = env.archiveStorageId)
      | none => false
    let srcIds1 :=
      if add then
        (if f.storage_id ∈ srcIds then srcIds else srcIds ++ [f.storage_id])
      else srcIds
    let r := discoverSourceStorages env rest srcIds1 c.1
    (r.1, r.2.1, c.2 ++ r.2.2)

/-- Step "ensure file is on archive disk": accept an existing destination
file, otherwise copy from the source mount and verify sizes, otherwise
fail. Returns (state, ops, `some false` on hard failure / `none` to
proceed). -/
def ensureOnArchiveDisk (env : AEnv) (live : Bool)
    (archiveDiskPath : String) (sourceDiskPath : Option String)
    (s : AState) : AState × List AOp × Option Bool :=
  if (diskGet s.disk archiveDiskPath).isSome then
    (s, [AOp.statExists archiveDiskPath, AOp.statSize archiveDiskPath], none)
  else
    match sourceDiskPath with
    | some sp =>
      if (diskGet s.disk sp).isSome then
        if live then
          let srcSize := (diskGet s.disk sp).getD 0
          let dstSize := env.copyWrite srcSize
          let s1 := { s with disk := diskSet s.disk archiveDiskPath dstSize }
          let ops := [AOp.statExists archiveDiskPath, AOp.statExists sp,
            AOp.mkdirOp (dirname archiveDiskPath),
            AOp.copyOp sp archiveDiskPath,
            AOp.statSize sp, AOp.statSize archiveDiskPath]
          if srcSize = dstSize then (s1, ops, none) else (s1, ops, some false)
        else (s, [AOp.statExists archiveDiskPath, AOp.statExists sp], none)
      else
        (s, [AOp.statExists archiveDiskPath, AOp.statExists sp], some false)
    | none => (s, [AOp.statExists archiveDiskPath], some false)

/-- Step "ensure archive file set exists": reuse an existing record, else
fetch component ids (best effort) and create one. Returns
(state, ops, file-set id used). -/
def ensureArchiveFileSet (env : AEnv) (live : Bool) (origFmtId : String)
    (dirPath fileName : String) (archiveFileSet : Option AFileSet)
    (s : AState) : AState × List AOp × String :=
  match archiveFileSet with
  | some fs => (s, [], fs.id)
  | none =>
    let compOps := [AOp.getComponents origFmtId]
    if live then
      let fsId := "gen-" ++ toString s.nextId
      let newFs : AFileSet :=
        ⟨fsId, env.archiveStorageId, origFmtId, ensureSlash dirPath,
          fileName, "ACTIVE"⟩
      ({ s with fileSets := s.fileSets ++ [newFs], nextId := s.nextId + 1 },
        compOps ++ [AOp.postFileSet], fsId)
    else (s, compOps, "(dry-run)")

/-- Step "ensure archive file record exists": reuse an existing record,
else create one with the on-disk size (falling back to the source
record's declared size). -/
def ensureArchiveFileRecord (env : AEnv) (live : Bool)
    (archiveFileRecord : Option AFile) (sourceFile : Option AFile)
    (_fileSetId dirPath fileName archiveDiskPath : String)
    (s : AState) : AState × List AOp :=
  match archiveFileRecord with
  | some _ => (s, [])
  | none =>
    let onDisk := diskGet s.disk archiveDiskPath
    let fileSize :=
      match onDisk with
      | some n => n
      | none =>
        match sourceFile with
        | some f => f.size
        | none => 0
    let sizeOps :=
      AOp.statExists archiveDiskPath ::
        (match onDisk with
         | some _ => [AOp.statSize archiveDiskPath]
         | none => [])
    if live then
      let frId := "gen-" ++ toString s.nextId
      let newF : AFile :=
        ⟨frId, env.archiveStorageId, ensureSlash dirPath, fileName, fileSize⟩
      ({ s with files := s.files ++ [newF], nextId := s.nextId + 1 },
        sizeOps ++ [AOp.postFile])
    else (s, sizeOps)

/-- The `for (const fmt of formats)` loop of the status-flip step: patch
every format of the (fetched) format list to `ARCHIVED`. -/
def patchFormatsLoop : List AFormat → AState → AState × List AOp
  | [], st => (st, [])
  | fmt :: rest, st =>
    let st1 := { st with
      formats := st.formats.map
        (fun g => if g.id = fmt.id then { g with archive_status := "ARCHIVED" }
                  else g) }
    let r := patchFormatsLoop rest st1
    (r.1, AOp.patchFormatStatus fmt.id "ARCHIVED" :: r.2)

/-- The "delete source file sets" loop: one DELETE per source file set, a
failure logged as a warning without stopping the loop. The DELETE is a
soft delete, modelled as setting the record's status to `DELETED`. -/
def deleteFileSetsLoop (env : AEnv) (live : Bool) :
    List AFileSet → List String → AState → AState × List String × List AOp
  | [], cache, st => (st, cache, [])
  | fs :: rest, cache, st =>
    let c := getStorageC cache fs.storage_id
    if live then
      if env.deleteFails fs.id then
        let r := deleteFileSetsLoop env live rest c.1 st
        (r.1, r.2.1, c.2 ++ [AOp.deleteFileSet fs.id] ++ r.2.2)
      else
        let st1 := { st with
          fileSets := st.fileSets.map
            (fun g => if g.id = fs.id then { g with status := "DELETED" }
                      else g) }
        let r := deleteFileSetsLoop env live rest c.1 st1
        (r.1, r.2.1, c.2 ++ [AOp.deleteFileSet fs.id] ++ r.2.2)
    else
      let r := deleteFileSetsLoop env live rest c.1 st
      (r.1, r.2.1, c.2 ++ r.2.2)

/-- The "delete source files from disk" loop: existence check per file,
`unlinkSync` when present and live. A failing unlink is uncaught: the
item aborts and the remaining files are not processed (Bool result:
thrown). -/
def unlinkLoop (env : AEnv) (live : Bool) :
    List AFile → AState → AState × List AOp × Bool
  | [], st => (st, [], false)
  | f :: rest, st =>
    let p := FixCollection.pjoin3 env.sourceMountPath f.directory_path f.name
    if (diskGet st.disk p).isSome then
      if live then
        if env.unlinkFails p then
          (st, [AOp.statExists p, AOp.unlinkOp p], true)
        else
          let st1 := { st with disk := diskDel st.disk p }
          let r := unlinkLoop env live rest st1
          (r.1, AOp.statExists p :: AOp.unlinkOp p :: r.2.1, r.2.2)
      else
        let r := unlinkLoop env live rest st
        (r.1, AOp.statExists p :: r.2.1, r.2.2)
    else
      let r := unlinkLoop env live rest st
      (r.1, AOp.statExists p :: r.2.1, r.2.2)

/-- `archiveAsset` of archive-assets-to-storage.ts: the whole per-asset
migration workflow over one fetched snapshot of the remote state. -/
def archiveAsset (env : AEnv) (live : Bool) (s : AState) : ARes :=
  let ops0 := [AOp.getAsset, AOp.getFiles, AOp.getFileSets, AOp.getFormats]
  let files := s.files
  let fileSets := s.fileSets
  let formats := s.formats
  let originalFormat :=
    match formats.find? (fun f => f.name = "ORIGINAL") with
    | some f => some f
    | none => formats.head?
  match originalFormat with
  | none => ⟨s, ops0, .ok false⟩
  | some origFmt =>
    let disc := discoverSourceStorages env files [] []
    let srcIds := disc.1
    let cache := disc.2.1
    let ops1 := ops0 ++ disc.2.2
    let archiveFileRecord :=
      files.find? (fun f => f.storage_id = env.archiveStorageId)
    let archiveFileSet :=
      fileSets.find? (fun fs => fs.storage_id = env.archiveStorageId)
    let sourceFile :=
      files.find? (fun f => ¬ f.storage_id = env.archiveStorageId)
    let refFile :=
      match sourceFile with
      | some f => some f
      | none =>
        match archiveFileRecord with
        | some f => some f
        | none => files.head?
    match refFile with
    | none => ⟨s, ops1, .ok false⟩
    | some ref =>
      let dirPath := ref.directory_path
      let fileName := ref.name
      let archiveDiskPath :=
        FixCollection.pjoin3 env.archiveMountPath dirPath fileName
      let sourceDiskPath := sourceFile.map
        (fun f => FixCollection.pjoin3 env.sourceMountPath
          f.directory_path f.name)
      let e1 := ensureOnArchiveDisk env live archiveDiskPath sourceDiskPath s
      match e1.2.2 with
      | some b => ⟨e1.1, ops1 ++ e1.2.1, .ok b⟩
      | none =>
        let ops2 := ops1 ++ e1.2.1
        let e2 := ensureArchiveFileSet env live origFmt.id dirPath fileName
          archiveFileSet e1.1
        let ops3 := ops2 ++ e2.2.1
        let e3 := ensureArchiveFileRecord env live archiveFileRecord
          sourceFile e2.2.2 dirPath fileName archiveDiskPath e2.1
        let ops4 := ops3 ++ e3.2
        let e4 :=
          if live then
            let st := { e3.1 with assetStatus := "ARCHIVED" }
            let pf := patchFormatsLoop formats st
            (pf.1, AOp.patchAssetStatus "ARCHIVED" :: pf.2)
          else (e3.1, [])
        let ops5 := ops4 ++ e4.2
        let sourceFileSets := fileSets.filter (fun fs => fs.storage_id ∈ srcIds)
        let e5 := deleteFileSetsLoop env live sourceFileSets cache e4.1
        let ops6 := ops5 ++ e5.2.2
        let sourceFiles := files.filter (fun f => f.storage_id ∈ srcIds)
        let e6 := unlinkLoop env live sourceFiles e5.1
        let ops7 := ops6 ++ e6.2.1
        if e6.2.2 then ⟨e6.1, ops7, .thrown⟩ else ⟨e6.1, ops7, .ok true⟩

/-- Is an op a source-retirement delete (file-set DELETE or disk unlink)? -/
def isDeleteOp : AOp → Bool
  | .deleteFileSet _ => true
  | .unlinkOp _ => true
  | _ => false

/-- Is an op a file copy? -/
def isCopyOp : AOp → Bool
  | .copyOp _ _ => true
  | _ => false

/-- Is an op a file-set creation? -/
def isPostFileSetOp : AOp → Bool
  | .postFileSet => true
  | _ => false

/-- Is an op a file-record creation? -/
def isPostFileOp : AOp → Bool
  | .postFile => true
  | _ => false

/-- Is an op a file-set DELETE request? -/
def isFsDeleteOp : AOp → Bool
  | .deleteFileSet _ => true
  | _ => false

/-- Is an op a disk unlink? -/
def isUnlinkOp : AOp → Bool
  | .unlinkOp _ => true
  | _ => false

/-- Is an op a read (remote GET, existence check or size stat)? -/
def isReadOp : AOp → Bool
  | .getAsset => true
  | .getFiles => true
  | .getFileSets => true
  | .getFormats => true
  | .getStorage _ => true
  | .getComponents _ => true
  | .statExists _ => true
  | .statSize _ => true
  | _ => false

/-- Is an op a remote GET request? -/
def isGetOp : AOp → Bool
  | .getAsset => true
  | .getFiles => true
  | .getFileSets => true
  | .getFormats => true
  | .getStorage _ => true
  | .getComponents _ => true
  | _ => false

/-- Is an op a local existence check? -/
def isExistsOp : AOp → Bool
  | .statExists _ => true
  | _ => false

/-- The step-2 outcome of a run: `none` when the flow fails before the
ensure-on-archive-disk step (no format / no file record), otherwise the
ensure step's own flag (`some false` = hard failure of step 2). -/
def step2Outcome (env : AEnv) (live : Bool) (s : AState) :
    Option (Option Bool) :=
  let formats := s.formats
  let files := s.files
  let originalFormat :=
    match formats.find? (fun f => f.name = "ORIGINAL") with
    | some f => some f
    | none => formats.head?
  match originalFormat with
  | none => none
  | some _ =>
    let sourceFile :=
      files.find? (fun f => ¬ f.storage_id = env.archiveStorageId)
    let archiveFileRecord :=
      files.find? (fun f => f.storage_id = env.archiveStorageId)
    let refFile :=
      match sourceFile with
      | some f => some f
      | none =>
        match archiveFileRecord with
        | some f => some f
        | none => files.head?
    match refFile with
    | none => none
    | some ref =>
      let archiveDiskPath :=
        FixCollection.pjoin3 env.archiveMountPath ref.directory_path ref.name
      let sourceDiskPath := sourceFile.map
        (fun f => FixCollection.pjoin3 env.sourceMountPath
          f.directory_path f.name)
      some (ensureOnArchiveDisk env live archiveDiskPath sourceDiskPath s).2.2

end ArchiveToStorage

/-- C2 witness input: one source file record but nothing on either disk,
so the ensure-on-archive-disk step hard-fails. -/
def c2env : ArchiveToStorage.AEnv where
  sourceMountPath := "/s"
  archiveMountPath := "/a"
  archiveStorageId := "ARC"
  storages := fun sid =>
    if sid = "W" then some ⟨"W", "Work", "FILES"⟩ else none
  components := fun _ => some []
  copyWrite := fun n => n
  deleteFails := fun _ => false
  unlinkFails := fun _ => false

def c2state : ArchiveToStorage.AState where
  assetStatus := "NOT_ARCHIVED"
  formats := [⟨"fm1", "ORIGINAL", "NOT_ARCHIVED"⟩]
  fileSets := [⟨"fsW", "W", "fm1", "d/", "n", "ACTIVE"⟩]
  files := [⟨"fW", "W", "d", "n", 7⟩]
  disk := []
  nextId := 0

/-- C3 counterexample environment: the archive mount `/s/x` is nested in
the source mount `/s`, so the archive destination path `/s/x/d/n` of the
reference file coincides with the source-mount path of file `f2`
(directory `x/d`, name `n`). -/
def c3env : ArchiveToStorage.AEnv where
  sourceMountPath := "/s"
  archiveMountPath := "/s/x"
  archiveStorageId := "ARC"
  storages := fun sid =>
    if sid = "ARC" then some ⟨"ARC", "Vault", "ARCHIVE"⟩
    else if sid = "AX" then some ⟨"AX", "Vault2", "ARCHIVE"⟩
    else if sid = "W" then some ⟨"W", "Work", "FILES"⟩
    else none
  components := fun _ => some []
  copyWrite := fun n => n
  deleteFails := fun _ => false
  unlinkFails := fun _ => false

/-- C3 counterexample state: the destination file already exists; the
first run retires source file `f2`, whose disk path is the destination
path, so the second run finds the destination gone and copies again. -/
def c3state : ArchiveToStorage.AState where
  assetStatus := "NOT_ARCHIVED"
  formats := [⟨"fm1", "ORIGINAL", "NOT_ARCHIVED"⟩]
  fileSets := [⟨"fsA", "ARC", "fm1", "d/", "n", "ACTIVE"⟩]
  files := [⟨"f1", "AX", "d", "n", 5⟩,
            ⟨"f2", "W", "x/d", "n", 5⟩,
            ⟨"f3", "ARC", "d", "n", 5⟩]
  disk := [("/s/x/d/n", 5), ("/s/d/n", 5)]
  nextId := 0

/-- C3 witness input: a plain migration (distinct mounts, one source
file, nothing at the destination yet). -/
def c3wenv : ArchiveToStorage.AEnv where
  sourceMountPath := "/src"
  archiveMountPath := "/arc"
  archiveStorageId := "ARC"
  storages := fun sid =>
    if sid = "ARC" then some ⟨"ARC", "Vault", "ARCHIVE"⟩
    else if sid = "W" then some ⟨"W", "Work", "FILES"⟩
    else none
  components := fun _ => some ["comp1"]
  copyWrite := fun n => n
  deleteFails := fun _ => false
  unlinkFails := fun _ => false

def c3wstate : ArchiveToStorage.AState where
  assetStatus := "NOT_ARCHIVED"
  formats := [⟨"fm1", "ORIGINAL", "NOT_ARCHIVED"⟩]
  fileSets := [⟨"fsW", "W", "fm1", "d/", "a.mov", "ACTIVE"⟩]
  files := [⟨"fW", "W", "d", "a.mov", 42⟩]
  disk := [("/src/d/a.mov", 42)]
  nextId := 0

/-- C7 input: a migration whose copy path is taken (source file present,
destination absent), exposing the live-only copy-verification size reads. -/
def c7env : ArchiveToStorage.AEnv where
  sourceMountPath := "/src"
  archiveMountPath := "/arc"
  archiveStorageId := "ARC"
  storages := fun sid =>
    if sid = "ARC" then some ⟨"ARC", "Vault", "ARCHIVE"⟩
    else if sid = "W" then some ⟨"W", "Work", "FILES"⟩
    else none
  components := fun _ => some ["comp1"]
  copyWrite := fun n => n
  deleteFails := fun _ => false
  unlinkFails := fun _ => false

def c7state : ArchiveToStorage.AState where
  assetStatus := "NOT_ARCHIVED"
  formats := [⟨"fm1", "ORIGINAL", "NOT_ARCHIVED"⟩]
  fileSets := [⟨"fsW", "W", "fm1", "d/", "a.mov", "ACTIVE"⟩]
  files := [⟨"fW", "W", "d", "a.mov", 42⟩]
  disk := [("/src/d/a.mov", 42)]
  nextId := 0

/-- C9 input: two source file sets (the first DELETE fails) and two
source disk files (the first unlink fails). The destination already has
the file, record and file set, so the run goes straight to retirement. -/
def c9env : ArchiveToStorage.AEnv where
  sourceMountPath := "/src"
  archiveMountPath := "/arc"
  archiveStorageId := "ARC"
  storages := fun sid =>
    if sid = "ARC" then some ⟨"ARC", "Vault", "ARCHIVE"⟩
    else if sid = "W" then some ⟨"W", "Work", "FILES"⟩
    else none
  components := fun _ => some []
  copyWrite := fun n => n
  deleteFails := fun fsId => fsId = "fsW1"
  unlinkFails := fun p => p = "/src/d/a1"

def c9state : ArchiveToStorage.AState where
  assetStatus := "NOT_ARCHIVED"
  formats := [⟨"fm1", "ORIGINAL", "NOT_ARCHIVED"⟩]
  fileSets := [⟨"fsW1", "W", "fm1", "d/", "a1", "ACTIVE"⟩,
               ⟨"fsW2", "W", "fm1", "d/", "a2", "ACTIVE"⟩,
               ⟨"fsA", "ARC", "fm1", "d/", "a1", "ACTIVE"⟩]
  files := [⟨"fW1", "W", "d", "a1", 3⟩,
            ⟨"fW2", "W", "d", "a2", 4⟩,
            ⟨"fA", "ARC", "d", "a1", 3⟩]
  disk := [("/arc/d/a1", 3), ("/src/d/a1", 3), ("/src/d/a2", 4)]
  nextId := 0

namespace FixCollection

theorem scanCollection_loop_diverges (n : Nat) :
    scanCollection loopEnv n "r" = none := by
  induction n with
  | zero => rfl
  | succ n ih =>
    unfold scanCollection
    rw [show loopEnv.contents "r" =
      some [⟨"collections", "r", "", ""⟩] from rfl]
    simp [ih]

theorem scanCollection_ranked_total (env : ScanEnv) (rank : String → Nat)
    (h : ChildRanked env rank) :
    ∀ n cid, rank cid < n → (scanCollection env n cid).isSome := by
  intro n
  induction n with
  | zero => intro cid hlt; exact absurd hlt (Nat.not_lt_zero _)
  | succ n ih =>
    intro cid hlt
    unfold scanCollection
    cases hc : env.contents cid with
    | none => simp
    | some entries =>
      have hsub : ∀ e ∈ entries, e.object_type = "collections" →
          (scanCollection env n e.id).isSome := by
        intro e he hcol
        exact ih e.id (Nat.lt_of_lt_of_le (h cid entries hc e he hcol)
          (Nat.le_of_lt_succ hlt))
      have main : ∀ (l : List Entry) (acc : Option (List Target)),
          (∀ e ∈ l, e.object_type = "collections" →
            (scanCollection env n e.id).isSome) →
          acc.isSome →
          (l.foldl
            (fun acc e =>
              match acc with
              | none => none
              | some ts =>
                if e.object_type = "collections" then
                  match scanCollection env n e.id with
                  | none => none
                  | some sub => some (ts ++ sub)
                else if e.object_type = "assets" then
                  if orUnknown e.archive_status ≠ "ARCHIVED" then
                    some (ts ++ [⟨e.id, orNoTitle e.title⟩])
                  else some ts
                else some ts)
            acc).isSome := by
        intro l
        induction l with
        | nil => intro acc _ hacc; simpa using hacc
        | cons e rest ihl =>
          intro acc hl hacc
          rw [List.foldl_cons]
          rcases Option.isSome_iff_exists.mp hacc with ⟨ts, hts⟩
          subst hts
          refine ihl _ (fun e' he' => hl e' (List.mem_cons_of_mem e he')) ?_
          by_cases hcol : e.object_type = "collections"
          · rcases Option.isSome_iff_exists.mp
              (hl e (List.mem_cons_self e rest) hcol) with ⟨sub, hsub2⟩
            simp [hcol, hsub2]
          · by_cases hass : e.object_type = "assets"
            · by_cases harch : orUnknown e.archive_status ≠ "ARCHIVED" <;>
                simp [hcol, hass, harch]
            · simp [hcol, hass]
      exact main entries (some []) hsub rfl

theorem classifyFiles_missing_none (env : ClassifyEnv) :
    ∀ (l : List FileRec) (onArchive : Bool) (fus : List (String × String)),
      (∃ f ∈ l,
        isTargetArchiveStorage env.storageNameFilter (env.storages f.storage_id) = true ∧
        env.diskExists (pjoin3 env.mountPath f.directory_path f.name) = false) →
      classifyFiles env l onArchive fus = none := by
  intro l
  induction l with
  | nil => intro _ _ h; rcases h with ⟨f, hf, _⟩; cases hf
  | cons f rest ih =>
    intro onArchive fus h
    rcases h with ⟨g, hg, hgt, hgm⟩
    unfold classifyFiles
    by_cases ht : isTargetArchiveStorage env.storageNameFilter
        (env.storages f.storage_id) = true
    · by_cases hm : env.diskExists (pjoin3 env.mountPath f.directory_path f.name) = true
      · have hgrest : g ∈ rest := by
          rcases List.mem_cons.mp hg with hgf | hgrest
          · subst hgf; rw [hm] at hgm; cases hgm
          · exact hgrest
        simp only [ht, if_true, hm]
        simp only [not_true, if_false]
        exact ih true _ ⟨g, hgrest, hgt, hgm⟩
      · simp only [ht, if_true]
        rw [Bool.not_eq_true] at hm
        simp [hm]
    · have hgrest : g ∈ rest := by
        rcases List.mem_cons.mp hg with hgf | hgrest
        · subst hgf; exact absurd hgt ht
        · exact hgrest
      rw [Bool.not_eq_true] at ht
      simp only [ht, Bool.false_eq_true, if_false]
      exact ih onArchive fus ⟨g, hgrest, hgt, hgm⟩

theorem processFmt_foldl_trace (live : Bool) (σ : WOp → Bool) (aid : String) :
    ∀ (l : List String) (acc : FixCounts × List WOp),
      (l.foldl (processFmt live σ aid) acc).2 =
        acc.2 ++ (if live then l.map (WOp.patchFormatArchived aid) else []) := by
  intro l
  induction l with
  | nil => intro acc; simp
  | cons x rest ih =>
    intro acc
    rw [List.foldl_cons, ih]
    cases live with
    | false => simp [processFmt]
    | true =>
      by_cases hσ : σ (WOp.patchFormatArchived aid x) <;>
        simp [processFmt, hσ]

theorem processFile_foldl_trace (live : Bool) (σ : WOp → Bool) (aid : String) :
    ∀ (l : List (String × String)) (acc : FixCounts × List WOp),
      (l.foldl (processFile live σ aid) acc).2 =
        acc.2 ++ (if live then l.map (fun fu => WOp.patchFileClosed aid fu.1) else []) := by
  intro l
  induction l with
  | nil => intro acc; simp
  | cons x rest ih =>
    intro acc
    rw [List.foldl_cons, ih]
    cases live with
    | false => simp [processFile]
    | true =>
      by_cases hσ : σ (WOp.patchFileClosed aid x.1) <;>
        simp [processFile, hσ]

theorem processFixes_trace_append (live : Bool) (σ : WOp → Bool) :
    ∀ (l : List AssetToFix) (acc : FixCounts × List WOp),
      (l.foldl
        (fun acc a =>
          let r := processAsset live σ a
          (acc.1.add r.1, acc.2 ++ r.2)) acc).2 =
        acc.2 ++ (processFixes live σ l).2 := by
  intro l
  induction l with
  | nil => intro acc; simp [processFixes]
  | cons a rest ih =>
    intro acc
    rw [List.foldl_cons]
    rw [ih]
    conv_rhs => rw [processFixes, List.foldl_cons, ih]
    simp

end FixCollection

/-- **C8 counterexample**: `scanCollection` has no recursion-depth cap. On
a chain of 12 nested collections the scan still descends to the bottom
(the asset at nesting depth 12 is returned), which a 10-level cap would
forbid; an embedding fuel of 11 — more than the claimed cap — is still
exhausted. -/
theorem C8_counterexample :
    FixCollection.scanCollection chainEnv 11 "c0" = none ∧
    FixCollection.scanCollection chainEnv 20 "c0" =
      some [⟨"deep", "bottom"⟩] := by
  refine ⟨by decide, by decide⟩

/-- **C8 (amended)**: the Scanner recurses into child containers with no
depth cap: on an acyclic container tree (witnessed by a rank function
decreasing from parent to child) the scan terminates — any fuel above the
root's rank suffices — but on a cyclic container graph the recursion never
completes (every fuel is exhausted). -/
theorem C8_scan_termination_amended :
    (∀ n : Nat, FixCollection.scanCollection loopEnv n "r" = none) ∧
    (∀ (env : FixCollection.ScanEnv) (rank : String → Nat),
      FixCollection.ChildRanked env rank →
      ∀ n cid, rank cid < n →
        (FixCollection.scanCollection env n cid).isSome) :=
  ⟨FixCollection.scanCollection_loop_diverges,
   fun env rank h n cid hlt =>
     FixCollection.scanCollection_ranked_total env rank h n cid hlt⟩

/-- Witness for the amended C8 at concrete inputs. -/
theorem C8_scan_termination_amended_witness :
    FixCollection.scanCollection loopEnv 7 "r" = none ∧
    (FixCollection.scanCollection smallTreeEnv 2 "p").isSome := by
  constructor
  · exact C8_scan_termination_amended.1 7
  · refine C8_scan_termination_amended.2 smallTreeEnv smallTreeRank ?_ 2 "p" (by decide)
    intro cid entries hc e he hcol
    by_cases hp : cid = "p"
    · subst hp
      rw [show smallTreeEnv.contents "p" =
        some [⟨"collections", "q", "", ""⟩,
              ⟨"assets", "a1", "ARCHIVING", "t1"⟩] from rfl] at hc
      cases Option.some_inj.mp hc
      rcases List.mem_cons.mp he with rfl | he2
      · decide
      · rcases List.mem_cons.mp he2 with rfl | he3
        · exact absurd hcol (by decide)
        · cases he3
    · by_cases hq : cid = "q"
      · subst hq
        rw [show smallTreeEnv.contents "q" =
          some [⟨"assets", "a2", "NOT_ARCHIVED", "t2"⟩] from rfl] at hc
        cases Option.some_inj.mp hc
        rcases List.mem_cons.mp he with rfl | he2
        · exact absurd hcol (by decide)
        · cases he2
      · have hnil : smallTreeEnv.contents cid = some [] := by
          unfold smallTreeEnv
          simp [hp, hq]
        rw [hnil] at hc
        cases Option.some_inj.mp hc
        cases he

/-- **C10**: `classifyAsset` of fix-collection-archive-status.ts requires
every target-archive-storage placement to be present on disk: one such
placement whose file is missing at `mount/path/name` makes the whole item
a skip (`null`), even when other archive placements do exist on disk, and
an item with zero file records is likewise skipped. -/
theorem C10_classify_requires_every_archive_placement_on_disk
    (env : FixCollection.ClassifyEnv) (assetId : String)
    (files : List FixCollection.FileRec)
    (hf : env.files = some files)
    (hbad : files = [] ∨ ∃ f ∈ files,
      FixCollection.isTargetArchiveStorage env.storageNameFilter
        (env.storages f.storage_id) = true ∧
      env.diskExists
        (FixCollection.pjoin3 env.mountPath f.directory_path f.name) = false) :
    FixCollection.classifyAsset env assetId = .ok none := by
  unfold FixCollection.classifyAsset
  rw [hf]
  rcases hbad with hnil | hbad
  · subst hnil; simp
  · by_cases hlen : files.length = 0
    · simp [hlen]
    · simp [hlen,
        FixCollection.classifyFiles_missing_none env files false [] hbad]

/-- Witness for C10 at a concrete input. -/
theorem C10_classify_requires_every_archive_placement_on_disk_witness :
    FixCollection.classifyAsset c10env "a1" = .ok none :=
  C10_classify_requires_every_archive_placement_on_disk c10env "a1" _ rfl
    (Or.inr ⟨⟨"f2", "s1", "dir", "b.mov", "CLOSED"⟩, by decide, by decide, by decide⟩)

/-- **C6 counterexample**: in live mode, when the item-status patch of
asset `A` fails, the executor issues no format patch and no file patch for
`A` — the remaining sub-steps of that item are skipped (the loop
`continue`s), contradicting the claim that a failure on one sub-step does
not prevent the remaining sub-steps of the same item. -/
theorem C6_counterexample :
    (FixCollection.processFixes true c6sigma c6batch).2 =
      [FixCollection.WOp.patchAssetArchived "A",
       FixCollection.WOp.patchAssetArchived "B",
       FixCollection.WOp.patchFormatArchived "B" "g1"] ∧
    FixCollection.WOp.patchFormatArchived "A" "f1" ∉
      (FixCollection.processFixes true c6sigma c6batch).2 ∧
    FixCollection.WOp.patchFileClosed "A" "u1" ∉
      (FixCollection.processFixes true c6sigma c6batch).2 := by
  refine ⟨by decide, by decide, by decide⟩

/-- **C6 (amended)**: in live mode, (a) the write trace of a batch is the
concatenation of the per-item traces — no item failure truncates the
batch; (b) when the item-status patch succeeds, every format patch and
every file patch of that item is issued regardless of individual failures;
(c) when the item-status patch fails, the failure is counted as an error
and the remaining sub-steps of that item are skipped. -/
theorem C6_substep_failure_isolation_amended :
    (∀ (σ : FixCollection.WOp → Bool) (a : FixCollection.AssetToFix)
        (rest : List FixCollection.AssetToFix),
      (FixCollection.processFixes true σ (a :: rest)).2 =
        (FixCollection.processAsset true σ a).2 ++
        (FixCollection.processFixes true σ rest).2) ∧
    (∀ (σ : FixCollection.WOp → Bool) (a : FixCollection.AssetToFix),
      σ (FixCollection.WOp.patchAssetArchived a.id) = false →
      (FixCollection.processAsset true σ a).2 =
        FixCollection.WOp.patchAssetArchived a.id ::
          (a.formatIds.map (FixCollection.WOp.patchFormatArchived a.id) ++
           a.fileUpdates.map (fun fu => FixCollection.WOp.patchFileClosed a.id fu.1))) ∧
    (∀ (σ : FixCollection.WOp → Bool) (a : FixCollection.AssetToFix),
      σ (FixCollection.WOp.patchAssetArchived a.id) = true →
      FixCollection.processAsset true σ a =
        ({ FixCollection.FixCounts.zero with errors := 1 },
         [FixCollection.WOp.patchAssetArchived a.id])) := by
  refine ⟨?_, ?_, ?_⟩
  · intro σ a rest
    unfold FixCollection.processFixes
    rw [List.foldl_cons]
    rw [FixCollection.processFixes_trace_append]
    simp [FixCollection.processFixes]
  · intro σ a hσ
    unfold FixCollection.processAsset
    simp only [hσ, Bool.and_false, Bool.false_eq_true, if_false]
    rw [FixCollection.processFile_foldl_trace,
      FixCollection.processFmt_foldl_trace]
    simp
  · intro σ a hσ
    unfold FixCollection.processAsset
    simp [hσ]

/-- Witness for the amended C6 at concrete inputs. -/
theorem C6_substep_failure_isolation_amended_witness :
    (FixCollection.processAsset true c6sigma ⟨"B", "", ["g1"], []⟩).2 =
      [FixCollection.WOp.patchAssetArchived "B",
       FixCollection.WOp.patchFormatArchived "B" "g1"] ∧
    FixCollection.processAsset true c6sigma ⟨"A", "", ["f1"], []⟩ =
      ({ FixCollection.FixCounts.zero with errors := 1 },
       [FixCollection.WOp.patchAssetArchived "A"]) := by
  constructor
  · rw [C6_substep_failure_isolation_amended.2.1 c6sigma ⟨"B", "", ["g1"], []⟩
      (by decide)]
    decide
  · exact C6_substep_failure_isolation_amended.2.2 c6sigma
      ⟨"A", "", ["f1"], []⟩ (by decide)

namespace HealthCheck

theorem dedupGo_count (tid : String) :
    ∀ (l : List HAsset) (seen : List String),
      ((dedupGo seen l).filter (fun a => a.id = tid)).length =
        if tid ∈ seen then 0
        else if tid ∈ l.map (fun a => a.id) then 1 else 0 := by
  intro l
  induction l with
  | nil =>
    intro seen
    by_cases h : tid ∈ seen <;> simp [dedupGo, h]
  | cons a rest ih =>
    intro seen
    unfold dedupGo
    by_cases hseen : a.id ∈ seen
    · rw [if_pos hseen, ih seen]
      by_cases ht : tid ∈ seen
      · simp [ht]
      · have hne : ¬ tid = a.id := fun h => ht (h ▸ hseen)
        simp [ht, hne]
    · rw [if_neg hseen]
      by_cases hat : a.id = tid
      · subst hat
        have hz := ih (a.id :: seen)
        rw [if_pos (List.mem_cons_self a.id seen)] at hz
        simp [List.filter_cons, hz, hseen]
      · have hne : ¬ tid = a.id := fun h => hat h.symm
        rw [List.filter_cons]
        rw [if_neg (by simp [hat])]
        rw [ih (a.id :: seen)]
        by_cases ht : tid ∈ seen
        · rw [if_pos (List.mem_cons_of_mem _ ht), if_pos ht]
        · rw [if_neg (by simp [List.mem_cons, hne, ht]), if_neg ht]
          simp [hne]

end HealthCheck

/-- **C5 counterexample**: the scanner of fix-collection-archive-status.ts
performs no deduplication: asset `X`, reachable under the two child
collections of the scanned root, appears twice in the `targets` output,
not exactly once as claimed. -/
theorem C5_counterexample :
    FixCollection.scanCollection dupEnv 5 "root" =
      some [⟨"X", "clip"⟩, ⟨"X", "clip"⟩] ∧
    (((FixCollection.scanCollection dupEnv 5 "root").getD []).filter
      (fun t => t.id = "X")).length = 2 := by
  refine ⟨by decide, by decide⟩

/-- **C5 (amended)**: the verify-collection-archive-health pipeline does
deduplicate: `main` concatenates the per-root scan results and keeps the
first occurrence of each item id, so each reachable item id appears
exactly once in the candidate set handed to the classifier. The
fix-collection-archive-status scanner has no such dedup step. -/
theorem C5_health_candidates_deduplicated
    (env : FixCollection.ScanEnv) (fuel : Nat)
    (roots : List (String × String)) (all : List HealthCheck.HAsset)
    (hscan : HealthCheck.scanAll env fuel roots = some all) :
    HealthCheck.healthCandidates env fuel roots =
      some (HealthCheck.dedupById all) ∧
    ∀ tid,
      ((HealthCheck.dedupById all).filter (fun a => a.id = tid)).length =
        if tid ∈ all.map (fun a => a.id) then 1 else 0 := by
  constructor
  · unfold HealthCheck.healthCandidates
    rw [hscan]
    rfl
  · intro tid
    unfold HealthCheck.dedupById
    rw [HealthCheck.dedupGo_count tid all []]
    simp

/-- Witness for the amended C5: asset `X` is reachable under both child
collections of the root, appears twice in the raw scan output, and
exactly once after dedup. -/
theorem C5_health_candidates_deduplicated_witness :
    HealthCheck.scanAll dupEnv 5 [("root", "R")] =
      some [⟨"X", "clip", "NOT_ARCHIVED", "R"⟩,
            ⟨"X", "clip", "NOT_ARCHIVED", "R"⟩] ∧
    ((HealthCheck.dedupById
        [⟨"X", "clip", "NOT_ARCHIVED", "R"⟩,
         ⟨"X", "clip", "NOT_ARCHIVED", "R"⟩]).filter
      (fun a => a.id = "X")).length = 1 := by
  constructor
  · decide
  · have h := (C5_health_candidates_deduplicated dupEnv 5 [("root", "R")]
      [⟨"X", "clip", "NOT_ARCHIVED", "R"⟩,
       ⟨"X", "clip", "NOT_ARCHIVED", "R"⟩] (by decide)).2 "X"
    rw [h]
    decide

namespace HealthCheck

theorem fmtStep_fold_ops (live : Bool) (σ : HOp → Bool) (aid status : String) :
    ∀ (l : List String) (acc : ExecSt) (op : HOp),
      op ∈ (l.foldl (fmtStep live σ aid status) acc).trace →
      op ∈ acc.trace ∨ op.assetId = aid := by
  intro l
  induction l with
  | nil => intro acc op h; exact Or.inl h
  | cons x rest ih =>
    intro acc op h
    rw [List.foldl_cons] at h
    rcases ih _ op h with hin | heq
    · cases live with
      | false => exact Or.inl (by simpa [fmtStep] using hin)
      | true =>
        have htr : (fmtStep true σ aid status acc x).trace =
            acc.trace ++ [HOp.patchFormat aid x status] := by
          unfold fmtStep
          by_cases hσ : σ (HOp.patchFormat aid x status) <;> simp [hσ]
        rw [htr] at hin
        rcases List.mem_append.mp hin with h1 | h2
        · exact Or.inl h1
        · right; rw [List.mem_singleton.mp h2]; rfl
    · exact Or.inr heq

theorem fileStep_fold_ops (live : Bool) (σ : HOp → Bool) (aid : String) :
    ∀ (l : List (String × String)) (acc : ExecSt) (op : HOp),
      op ∈ (l.foldl (fileStep live σ aid) acc).trace →
      op ∈ acc.trace ∨ op.assetId = aid := by
  intro l
  induction l with
  | nil => intro acc op h; exact Or.inl h
  | cons x rest ih =>
    intro acc op h
    rw [List.foldl_cons] at h
    rcases ih _ op h with hin | heq
    · cases live with
      | false => exact Or.inl (by simpa [fileStep] using hin)
      | true =>
        have htr : (fileStep true σ aid acc x).trace =
            acc.trace ++ [HOp.patchFile aid x.1 "CLOSED"] := by
          unfold fileStep
          by_cases hσ : σ (HOp.patchFile aid x.1 "CLOSED") <;> simp [hσ]
        rw [htr] at hin
        rcases List.mem_append.mp hin with h1 | h2
        · exact Or.inl h1
        · right; rw [List.mem_singleton.mp h2]; rfl
    · exact Or.inr heq

theorem fixOne_ops (live : Bool) (σ : HOp → Bool) (acc : ExecSt)
    (a : AssetClassification) (op : HOp)
    (h : op ∈ (fixOne live σ acc a).trace) :
    op ∈ acc.trace ∨ op.assetId = a.id := by
  unfold fixOne at h
  by_cases hfail : (live && σ (HOp.patchAsset a.id "ARCHIVED")) = true
  · rw [if_pos hfail] at h
    simp only at h
    rcases List.mem_append.mp h with h1 | h2
    · exact Or.inl h1
    · right; rw [List.mem_singleton.mp h2]; rfl
  · rw [if_neg hfail] at h
    simp only at h
    rcases fileStep_fold_ops live σ a.id _ _ op h with h2 | heq
    · rcases fmtStep_fold_ops live σ a.id "ARCHIVED" _ _ op h2 with h3 | heq
      · cases live with
        | false => exact Or.inl (by simpa using h3)
        | true =>
          rcases (by simpa using h3 :
              op ∈ acc.trace ∨ op = HOp.patchAsset a.id "ARCHIVED") with h4 | h5
          · exact Or.inl h4
          · right; rw [h5]; rfl
      · exact Or.inr heq
    · exact Or.inr heq

theorem resetOne_ops (live : Bool) (σ : HOp → Bool) (acc : ExecSt)
    (a : AssetClassification) (op : HOp)
    (h : op ∈ (resetOne live σ acc a).trace) :
    op ∈ acc.trace ∨ op.assetId = a.id := by
  unfold resetOne at h
  by_cases hfail : (live && σ (HOp.patchAsset a.id "NOT_ARCHIVED")) = true
  · rw [if_pos hfail] at h
    simp only at h
    rcases List.mem_append.mp h with h1 | h2
    · exact Or.inl h1
    · right; rw [List.mem_singleton.mp h2]; rfl
  · rw [if_neg hfail] at h
    simp only at h
    rcases fmtStep_fold_ops live σ a.id "NOT_ARCHIVED" _ _ op h with h3 | heq
    · cases live with
      | false => exact Or.inl (by simpa using h3)
      | true =>
        rcases (by simpa using h3 :
            op ∈ acc.trace ∨ op = HOp.patchAsset a.id "NOT_ARCHIVED") with h4 | h5
        · exact Or.inl h4
        · right; rw [h5]; rfl
    · exact Or.inr heq

theorem fixOne_fold_ops (live : Bool) (σ : HOp → Bool) :
    ∀ (l : List AssetClassification) (acc : ExecSt) (op : HOp),
      op ∈ ((l.foldl (fixOne live σ) acc).trace) →
      op ∈ acc.trace ∨ ∃ c ∈ l, op.assetId = c.id := by
  intro l
  induction l with
  | nil => intro acc op h; exact Or.inl h
  | cons a rest ih =>
    intro acc op h
    rw [List.foldl_cons] at h
    rcases ih _ op h with hin | ⟨c, hc, heq⟩
    · rcases fixOne_ops live σ acc a op hin with h1 | heq
      · exact Or.inl h1
      · exact Or.inr ⟨a, List.mem_cons_self a rest, heq⟩
    · exact Or.inr ⟨c, List.mem_cons_of_mem a hc, heq⟩

theorem resetOne_fold_ops (live : Bool) (σ : HOp → Bool) :
    ∀ (l : List AssetClassification) (acc : ExecSt) (op : HOp),
      op ∈ ((l.foldl (resetOne live σ) acc).trace) →
      op ∈ acc.trace ∨ ∃ c ∈ l, op.assetId = c.id := by
  intro l
  induction l with
  | nil => intro acc op h; exact Or.inl h
  | cons a rest ih =>
    intro acc op h
    rw [List.foldl_cons] at h
    rcases ih _ op h with hin | ⟨c, hc, heq⟩
    · rcases resetOne_ops live σ acc a op hin with h1 | heq
      · exact Or.inl h1
      · exact Or.inr ⟨a, List.mem_cons_self a rest, heq⟩
    · exact Or.inr ⟨c, List.mem_cons_of_mem a hc, heq⟩

end HealthCheck

/-- **C1**: stale-cache precedence. (1) Whenever the authoritative item
fetch returns `ARCHIVED`, the health-check `classifyAsset` yields
`stale_cache`, whatever the placements, storage lookups, local-mount
checks or format fetches return (the environment is arbitrary and the
classifier returns before consulting them). (2) Every write request
issued by `applyFixes` targets the id of a classification whose action is
`fix_metadata` or `reset_failed`, so no remediation is ever applied to a
`stale_cache` item. -/
theorem C1_stale_cache_precedence :
    (∀ (env : HealthCheck.ClassifyEnv) (a : HealthCheck.HAsset),
      env.fetchAsset a.id = some "ARCHIVED" →
      (HealthCheck.classifyAsset env a).action =
        HealthCheck.Action.stale_cache) ∧
    (∀ (live : Bool) (σ : HealthCheck.HOp → Bool)
        (cs : List HealthCheck.AssetClassification) (s : HealthCheck.HState)
        (op : HealthCheck.HOp),
      op ∈ (HealthCheck.applyFixes live σ cs s).trace →
      ∃ c ∈ cs,
        (c.action = HealthCheck.Action.fix_metadata ∨
          c.action = HealthCheck.Action.reset_failed) ∧
        op.assetId = c.id) := by
  constructor
  · intro env a h
    unfold HealthCheck.classifyAsset
    rw [h]
    rfl
  · intro live σ cs s op h
    simp only [HealthCheck.applyFixes] at h
    rcases HealthCheck.resetOne_fold_ops live σ _ _ op h with h1 | ⟨c, hc, heq⟩
    · rcases HealthCheck.fixOne_fold_ops live σ _ _ op h1 with h2 | ⟨c, hc, heq⟩
      · cases h2
      · rcases List.mem_filter.mp hc with ⟨hcs, hact⟩
        exact ⟨c, hcs, Or.inl (by simpa using hact), heq⟩
    · rcases List.mem_filter.mp hc with ⟨hcs, hact⟩
      exact ⟨c, hcs, Or.inr (by simpa using hact), heq⟩

/-- Witness for C1 at concrete inputs: an item whose authoritative status
is `ARCHIVED` classifies as `stale_cache` even though its placement and
format fetches fail and the mount has nothing; and a write issued for a
concrete `fix_metadata` batch indeed targets that batch's item. -/
theorem C1_stale_cache_precedence_witness :
    (HealthCheck.classifyAsset c1env ⟨"A", "t", "NOT_ARCHIVED", "C"⟩).action =
      HealthCheck.Action.stale_cache ∧
    ∃ c ∈ [c1fix],
      (c.action = HealthCheck.Action.fix_metadata ∨
        c.action = HealthCheck.Action.reset_failed) ∧
      (HealthCheck.HOp.patchAsset "B" "ARCHIVED").assetId = c.id := by
  constructor
  · exact C1_stale_cache_precedence.1 c1env ⟨"A", "t", "NOT_ARCHIVED", "C"⟩ rfl
  · exact C1_stale_cache_precedence.2 true (fun _ => false) [c1fix] ⟨[], [], []⟩
      (HealthCheck.HOp.patchAsset "B" "ARCHIVED") (by decide)

namespace HealthCheck

theorem getAssoc_setAssoc_self {α : Type} [DecidableEq α] (k : α) (v : String) :
    ∀ l : List (α × String), getAssoc k (setAssoc k v l) = some v := by
  intro l
  induction l with
  | nil => simp [setAssoc, getAssoc]
  | cons p rest ih =>
    obtain ⟨k', v'⟩ := p
    unfold setAssoc
    by_cases h : k' = k
    · simp [h, getAssoc]
    · simp [h, getAssoc, ih]

theorem getAssoc_setAssoc_other {α : Type} [DecidableEq α] (k q : α)
    (v : String) (hne : q ≠ k) :
    ∀ l : List (α × String), getAssoc q (setAssoc k v l) = getAssoc q l := by
  intro l
  induction l with
  | nil =>
    have h : ¬ k = q := fun h => hne h.symm
    simp [setAssoc, getAssoc, h]
  | cons p rest ih =>
    obtain ⟨k', v'⟩ := p
    unfold setAssoc
    by_cases h : k' = k
    · subst h
      have hq : ¬ k' = q := fun hq => hne hq.symm
      simp [getAssoc, hq]
    · simp only [if_neg h]
      by_cases hq : k' = q
      · simp [getAssoc, hq]
      · simp [getAssoc, hq, ih]

theorem fmtStep_assetStatus (live : Bool) (σ : HOp → Bool)
    (aid status : String) (acc : ExecSt) (x : String) :
    (fmtStep live σ aid status acc x).st.assetStatus = acc.st.assetStatus := by
  unfold fmtStep
  cases live with
  | false => rfl
  | true => by_cases hσ : σ (HOp.patchFormat aid x status) <;> simp [hσ]

theorem fmtStep_fold_assetStatus (live : Bool) (σ : HOp → Bool)
    (aid status : String) :
    ∀ (l : List String) (acc : ExecSt),
      ((l.foldl (fmtStep live σ aid status) acc).st.assetStatus) =
        acc.st.assetStatus := by
  intro l
  induction l with
  | nil => intro acc; rfl
  | cons x rest ih =>
    intro acc
    rw [List.foldl_cons, ih, fmtStep_assetStatus]

theorem fmtStep_noFail_eq (aid status : String) (acc : ExecSt) (x : String) :
    fmtStep true (fun _ => false) aid status acc x =
      { acc with
        trace := acc.trace ++ [HOp.patchFormat aid x status]
        st := { acc.st with
          formatStatus := setAssoc (aid, x) status acc.st.formatStatus } } := rfl

theorem fmtStep_fold_keeps (aid status fid : String) :
    ∀ (l : List String) (acc : ExecSt),
      getAssoc (aid, fid) acc.st.formatStatus = some status →
      getAssoc (aid, fid)
        ((l.foldl (fmtStep true (fun _ => false) aid status) acc).st.formatStatus) =
        some status := by
  intro l
  induction l with
  | nil => intro acc h; exact h
  | cons x rest ih =>
    intro acc h
    rw [List.foldl_cons]
    apply ih
    rw [fmtStep_noFail_eq]
    by_cases hfx : fid = x
    · subst hfx
      exact getAssoc_setAssoc_self _ _ _
    · rw [getAssoc_setAssoc_other ((aid, x) : String × String) (aid, fid) status
        (fun hcon => hfx (congrArg Prod.snd hcon))]
      exact h

theorem fmtStep_fold_sets (aid status : String) :
    ∀ (l : List String) (acc : ExecSt) (fid : String), fid ∈ l →
      getAssoc (aid, fid)
        ((l.foldl (fmtStep true (fun _ => false) aid status) acc).st.formatStatus) =
        some status := by
  intro l
  induction l with
  | nil => intro acc fid h; cases h
  | cons x rest ih =>
    intro acc fid h
    rw [List.foldl_cons]
    rcases List.mem_cons.mp h with rfl | hrest
    · apply fmtStep_fold_keeps
      rw [fmtStep_noFail_eq]
      exact getAssoc_setAssoc_self _ _ _
    · exact ih _ fid hrest

end HealthCheck

namespace HealthCheck

theorem classifyBody_realStatus (env : ClassifyEnv) (a : HAsset) (real : String) :
    (classifyBody env a real).realStatus = real := rfl

theorem classifyBody_action_spec (env : ClassifyEnv) (a : HAsset) (real : String) :
    (classifyBody env a real).action =
      (if ((classifyBody env a real).onArchive &&
           (classifyBody env a real).archiveFileExists) then Action.fix_metadata
       else if real = "FAILED_TO_ARCHIVE" || real = "ARCHIVING" then
         Action.reset_failed
       else Action.skip) := rfl

end HealthCheck

/-- **C4 counterexample**: (i) an item whose authoritative status is
`ARCHIVED` and which is not on target archive storage with an existing
local file classifies as `stale_cache`, not `skip` as the claim's
"skip otherwise" requires; (ii) executing a `reset_failed` result resets
only the components collected at classification time (those not already
archived): component `f2`, already `ARCHIVED`, keeps status `ARCHIVED`
rather than being set to `NOT_ARCHIVED` as the claim's "all its
components" requires. -/
theorem C4_counterexample :
    (((HealthCheck.classifyAsset c4envA c4asset).onArchive &&
      (HealthCheck.classifyAsset c4envA c4asset).archiveFileExists) = false ∧
     (HealthCheck.classifyAsset c4envA c4asset).action =
       HealthCheck.Action.stale_cache ∧
     HealthCheck.Action.stale_cache ≠ HealthCheck.Action.skip) ∧
    ((HealthCheck.classifyAsset c4envB c4asset).action =
       HealthCheck.Action.reset_failed ∧
     HealthCheck.getAssoc (("A", "f2") : String × String)
       ((HealthCheck.applyFixes true (fun _ => false)
         [HealthCheck.classifyAsset c4envB c4asset] c4state).st.formatStatus) =
       some "ARCHIVED") := by
  refine ⟨⟨by decide, by decide, by decide⟩, ⟨by decide, by decide⟩⟩

/-- **C4 (amended)**: (a) for a candidate whose authoritative status is
not `ARCHIVED` and which is not on target archive storage with an
existing local file, classification yields `reset_failed` exactly when
the authoritative status is `FAILED_TO_ARCHIVE` or `ARCHIVING`, and
`skip` otherwise; (b) executing a `reset_failed` result in live mode with
no write failures sets the item's archival status to `NOT_ARCHIVED` and
the status of every component collected at classification time to
`NOT_ARCHIVED`; (c) the components collected at classification time are
exactly those whose status was not already `ARCHIVED`. -/
theorem C4_reset_failed_decision_and_execution_amended :
    (∀ (env : HealthCheck.ClassifyEnv) (a : HealthCheck.HAsset),
      (HealthCheck.classifyAsset env a).realStatus ≠ "ARCHIVED" →
      ((HealthCheck.classifyAsset env a).onArchive &&
        (HealthCheck.classifyAsset env a).archiveFileExists) = false →
      (HealthCheck.classifyAsset env a).action =
        (if (HealthCheck.classifyAsset env a).realStatus = "FAILED_TO_ARCHIVE" ||
            (HealthCheck.classifyAsset env a).realStatus = "ARCHIVING" then
          HealthCheck.Action.reset_failed
        else HealthCheck.Action.skip)) ∧
    (∀ (s : HealthCheck.HState) (c : HealthCheck.AssetClassification),
      c.action = HealthCheck.Action.reset_failed →
      HealthCheck.getAssoc c.id
        ((HealthCheck.applyFixes true (fun _ => false) [c] s).st.assetStatus) =
        some "NOT_ARCHIVED" ∧
      ∀ fid ∈ c.formatIds,
        HealthCheck.getAssoc ((c.id, fid) : String × String)
          ((HealthCheck.applyFixes true (fun _ => false) [c] s).st.formatStatus) =
          some "NOT_ARCHIVED") ∧
    (∀ (env : HealthCheck.ClassifyEnv) (a : HealthCheck.HAsset) (st : String)
        (fmts : List FixCollection.FormatRec),
      env.fetchAsset a.id = some st →
      FixCollection.orUnknown st ≠ "ARCHIVED" →
      env.fetchFormats a.id = some fmts →
      (HealthCheck.classifyAsset env a).formatIds =
        (fmts.filter (fun f => f.archive_status ≠ "ARCHIVED")).map
          (fun f => f.id)) := by
  refine ⟨?_, ?_, ?_⟩
  · intro env a h1 h2
    cases hf : env.fetchAsset a.id with
    | none =>
      have he : HealthCheck.classifyAsset env a =
          ⟨a.id, a.title, a.collectionTitle, a.collectionStatus,
            "FETCH_ERROR", false, false, [], .skip, [], []⟩ := by
        unfold HealthCheck.classifyAsset
        rw [hf]
      rw [he]
      simp
    | some st =>
      by_cases ha : FixCollection.orUnknown st = "ARCHIVED"
      · have he : HealthCheck.classifyAsset env a =
            ⟨a.id, a.title, a.collectionTitle, a.collectionStatus,
              FixCollection.orUnknown st, false, false, [],
              .stale_cache, [], []⟩ := by
          unfold HealthCheck.classifyAsset
          rw [hf]
          simp [ha]
        rw [he] at h1
        exact absurd ha (by simpa using h1)
      · have he : HealthCheck.classifyAsset env a =
            HealthCheck.classifyBody env a (FixCollection.orUnknown st) := by
          unfold HealthCheck.classifyAsset
          rw [hf]
          simp [ha]
        rw [he] at h2 ⊢
        rw [HealthCheck.classifyBody_action_spec, h2]
        rw [HealthCheck.classifyBody_realStatus]
        simp
  · intro s c hact
    have happ : HealthCheck.applyFixes true (fun _ => false) [c] s =
        HealthCheck.resetOne true (fun _ => false) ⟨s, [], 0, 0, 0⟩ c := by
      unfold HealthCheck.applyFixes
      simp [List.filter_cons, hact]
    rw [happ]
    unfold HealthCheck.resetOne
    simp only [Bool.and_false, Bool.false_eq_true, if_false, if_pos rfl]
    constructor
    · rw [show ∀ e : HealthCheck.ExecSt, ∀ n,
        ({ e with reset := n } : HealthCheck.ExecSt).st = e.st from fun _ _ => rfl]
      rw [HealthCheck.fmtStep_fold_assetStatus]
      exact HealthCheck.getAssoc_setAssoc_self _ _ _
    · intro fid hfid
      rw [show ∀ e : HealthCheck.ExecSt, ∀ n,
        ({ e with reset := n } : HealthCheck.ExecSt).st = e.st from fun _ _ => rfl]
      exact HealthCheck.fmtStep_fold_sets _ _ _ _ fid hfid
  · intro env a st fmts hfa hnarch hff
    have he : HealthCheck.classifyAsset env a =
        HealthCheck.classifyBody env a (FixCollection.orUnknown st) := by
      unfold HealthCheck.classifyAsset
      rw [hfa]
      simp [hnarch]
    rw [he]
    unfold HealthCheck.classifyBody
    simp [hff]

/-- Witness for the amended C4 at concrete inputs: the
`FAILED_TO_ARCHIVE` item off archive storage classifies `reset_failed`,
and executing it resets the item and its collected component `f1`. -/
theorem C4_reset_failed_decision_and_execution_amended_witness :
    (HealthCheck.classifyAsset c4envB c4asset).action =
      HealthCheck.Action.reset_failed ∧
    HealthCheck.getAssoc "A"
      ((HealthCheck.applyFixes true (fun _ => false)
        [HealthCheck.classifyAsset c4envB c4asset] c4state).st.assetStatus) =
      some "NOT_ARCHIVED" ∧
    HealthCheck.getAssoc (("A", "f1") : String × String)
      ((HealthCheck.applyFixes true (fun _ => false)
        [HealthCheck.classifyAsset c4envB c4asset] c4state).st.formatStatus) =
      some "NOT_ARCHIVED" := by
  refine ⟨?_, ?_, ?_⟩
  · rw [C4_reset_failed_decision_and_execution_amended.1 c4envB c4asset
      (by decide) (by decide)]
    decide
  · have h := (C4_reset_failed_decision_and_execution_amended.2.1 c4state
      (HealthCheck.classifyAsset c4envB c4asset) (by decide)).1
    simpa using h
  · have h := (C4_reset_failed_decision_and_execution_amended.2.1 c4state
      (HealthCheck.classifyAsset c4envB c4asset) (by decide)).2 "f1" (by decide)
    simpa using h

namespace ArchiveToStorage

theorem diskGet_diskSet_self (p : String) (n : Nat) :
    ∀ d : List (String × Nat), diskGet (diskSet d p n) p = some n := by
  intro d
  induction d with
  | nil => simp [diskSet, diskGet]
  | cons e rest ih =>
    obtain ⟨q, m⟩ := e
    unfold diskSet
    by_cases h : q = p
    · simp [h, diskGet]
    · simp [h, diskGet, ih]

theorem diskGet_diskSet_other (p q : String) (n : Nat) (hne : q ≠ p) :
    ∀ d : List (String × Nat), diskGet (diskSet d p n) q = diskGet d q := by
  intro d
  induction d with
  | nil =>
    have h : ¬ p = q := fun h => hne h.symm
    simp [diskSet, diskGet, h]
  | cons e rest ih =>
    obtain ⟨r, m⟩ := e
    unfold diskSet
    by_cases h : r = p
    · subst h
      have h2 : ¬ r = q := fun h => hne h.symm
      simp [diskGet, h2]
    · simp only [if_neg h]
      by_cases h2 : r = q
      · simp [diskGet, h2]
      · simp [diskGet, h2, ih]

theorem diskDel_absent (p : String) :
    ∀ d : List (String × Nat), diskGet d p = none → diskDel d p = d := by
  intro d
  induction d with
  | nil => intro _; rfl
  | cons e rest ih =>
    obtain ⟨q, m⟩ := e
    intro h
    unfold diskGet at h
    by_cases hq : q = p
    · rw [if_pos hq] at h; cases h
    · rw [if_neg hq] at h
      unfold diskDel
      rw [if_neg hq, ih h]

theorem diskGet_diskDel_self (p : String) :
    ∀ d : List (String × Nat), diskGet (diskDel d p) p = none := by
  intro d
  induction d with
  | nil => rfl
  | cons e rest ih =>
    obtain ⟨q, m⟩ := e
    unfold diskDel
    by_cases h : q = p
    · simp [h, ih]
    · simp [h, diskGet, ih]

theorem diskGet_diskDel_other (p q : String) (hne : q ≠ p) :
    ∀ d : List (String × Nat), diskGet (diskDel d p) q = diskGet d q := by
  intro d
  induction d with
  | nil => rfl
  | cons e rest ih =>
    obtain ⟨r, m⟩ := e
    unfold diskDel
    by_cases h : r = p
    · subst h
      have h2 : ¬ r = q := fun h => hne h.symm
      simp [diskGet, h2, ih]
    · simp only [if_neg h]
      unfold diskGet
      by_cases h2 : r = q
      · simp [h2]
      · simp [h2, ih]

/-- The ops of `discoverSourceStorages` are all storage GETs, hence free
of any predicate that rejects `getStorage`. -/
theorem discover_filter_eq_nil (env : AEnv) (p : AOp → Bool)
    (hp : ∀ i, p (AOp.getStorage i) = false) :
    ∀ (l : List AFile) (srcIds cache : List String),
      ((discoverSourceStorages env l srcIds cache).2.2).filter p = [] := by
  intro l
  induction l with
  | nil => intro srcIds cache; rfl
  | cons f rest ih =>
    intro srcIds cache
    unfold discoverSourceStorages
    simp only [List.filter_append]
    rw [ih]
    unfold getStorageC
    by_cases h : f.storage_id ∈ cache
    · simp [h]
    · simp [h, List.filter_cons, hp]

theorem ensure_filter_eq_nil (env : AEnv) (live : Bool)
    (dp : String) (spOpt : Option String) (s : AState) (p : AOp → Bool)
    (hpe : ∀ q, p (AOp.statExists q) = false)
    (hps : ∀ q, p (AOp.statSize q) = false)
    (hpm : ∀ q, p (AOp.mkdirOp q) = false)
    (hpc : ∀ q r, p (AOp.copyOp q r) = false) :
    ((ensureOnArchiveDisk env live dp spOpt s).2.1).filter p = [] := by
  unfold ensureOnArchiveDisk
  repeat' split
  all_goals simp [List.filter_cons, apply_ite, hpe, hps, hpm, hpc]

end ArchiveToStorage

/-- **C2**: when the ensure-physical-presence step (step 2 of the spec's
workflow, including its copy-and-size-verify path) fails for an item, the
run returns failure there and the retirement step never executes: the
trace contains no file-set DELETE and no disk unlink. -/
theorem C2_no_source_deletion_after_step2_failure
    (env : ArchiveToStorage.AEnv) (live : Bool) (s : ArchiveToStorage.AState)
    (h : ArchiveToStorage.step2Outcome env live s = some (some false)) :
    (ArchiveToStorage.archiveAsset env live s).out = .ok false ∧
    ((ArchiveToStorage.archiveAsset env live s).trace).filter
      ArchiveToStorage.isDeleteOp = [] := by
  unfold ArchiveToStorage.step2Outcome at h
  unfold ArchiveToStorage.archiveAsset
  dsimp only at h ⊢
  cases hofmt : (match s.formats.find? (fun f => f.name = "ORIGINAL") with
    | some f => some f
    | none => s.formats.head?) with
  | none =>
    rw [hofmt] at h
    cases h
  | some origFmt =>
    rw [hofmt] at h
    dsimp only at h ⊢
    cases href : (match s.files.find?
        (fun f : ArchiveToStorage.AFile =>
          ¬ f.storage_id = env.archiveStorageId) with
      | some f => some f
      | none =>
        match s.files.find?
            (fun f : ArchiveToStorage.AFile =>
              f.storage_id = env.archiveStorageId) with
        | some f => some f
        | none => s.files.head?) with
    | none =>
      rw [href] at h
      cases h
    | some ref =>
      rw [href] at h
      dsimp only at h ⊢
      rw [Option.some_inj.mp h]
      refine ⟨rfl, ?_⟩
      simp only [List.filter_append]
      rw [ArchiveToStorage.discover_filter_eq_nil env _ (fun _ => rfl)]
      rw [ArchiveToStorage.ensure_filter_eq_nil env live _ _ s _
        (fun _ => rfl) (fun _ => rfl) (fun _ => rfl) (fun _ _ => rfl)]
      rfl

/-- Witness for C2: nothing on either disk, so step 2 fails; the run
reports failure and issues no retirement operation. -/
theorem C2_no_source_deletion_after_step2_failure_witness :
    (ArchiveToStorage.archiveAsset c2env true c2state).out = .ok false ∧
    ((ArchiveToStorage.archiveAsset c2env true c2state).trace).filter
      ArchiveToStorage.isDeleteOp = [] :=
  C2_no_source_deletion_after_step2_failure c2env true c2state (by decide)

namespace ArchiveToStorage

/-- Every source file set gets its DELETE request issued, whatever the
failure oracle says: a failing DELETE is caught and logged, and the loop
continues with the next file set. -/
theorem deleteLoop_fsdeletes_all (env : AEnv) :
    ∀ (fss : List AFileSet) (cache : List String) (st : AState),
      ((deleteFileSetsLoop env true fss cache st).2.2).filter isFsDeleteOp =
        fss.map (fun fs => AOp.deleteFileSet fs.id) := by
  intro fss
  induction fss with
  | nil => intro cache st; rfl
  | cons fs rest ih =>
    intro cache st
    unfold deleteFileSetsLoop getStorageC
    by_cases hc : fs.storage_id ∈ cache
    · by_cases hd : env.deleteFails fs.id <;>
        simp [hc, hd, List.filter_append, List.filter_cons, isFsDeleteOp, ih]
    · by_cases hd : env.deleteFails fs.id <;>
        simp [hc, hd, List.filter_append, List.filter_cons, isFsDeleteOp, ih]

/-- A failing unlink aborts the disk-retirement loop: the present file's
unlink is attempted, the exception propagates, and no later file is
processed. -/
theorem unlinkLoop_abort_on_failure (env : AEnv) (f : AFile)
    (rest : List AFile) (st : AState)
    (hex : (diskGet st.disk
      (FixCollection.pjoin3 env.sourceMountPath f.directory_path f.name)).isSome
        = true)
    (hfail : env.unlinkFails
      (FixCollection.pjoin3 env.sourceMountPath f.directory_path f.name) = true) :
    unlinkLoop env true (f :: rest) st =
      (st,
       [AOp.statExists
          (FixCollection.pjoin3 env.sourceMountPath f.directory_path f.name),
        AOp.unlinkOp
          (FixCollection.pjoin3 env.sourceMountPath f.directory_path f.name)],
       true) := by
  unfold unlinkLoop
  simp [hex, hfail]

/-- With a cooperative unlink oracle the disk-retirement loop never
throws. -/
theorem unlinkLoop_no_failure_no_throw (env : AEnv) (live : Bool)
    (huf : ∀ q, env.unlinkFails q = false) :
    ∀ (l : List AFile) (st : AState), (unlinkLoop env live l st).2.2 = false := by
  intro l
  induction l with
  | nil => intro st; rfl
  | cons f rest ih =>
    intro st
    unfold unlinkLoop
    by_cases hex : (diskGet st.disk
        (FixCollection.pjoin3 env.sourceMountPath f.directory_path f.name)).isSome
    · cases live with
      | false => simp [hex, ih]
      | true => simp [hex, huf, ih]
    · simp [hex, ih]

end ArchiveToStorage

/-- **C9 counterexample**: in the retirement step of a live migration,
the DELETE of file set `fsW1` fails yet `fsW2`'s DELETE is still issued —
but the failing unlink of `/src/d/a1` aborts the item: the second source
disk file `/src/d/a2` is never even examined, contradicting the claim
that a delete failure on one source disk file does not prevent deleting
the remaining ones. -/
theorem C9_counterexample :
    (ArchiveToStorage.archiveAsset c9env true c9state).out =
      ArchiveToStorage.AOutcome.thrown ∧
    ArchiveToStorage.AOp.deleteFileSet "fsW1" ∈
      (ArchiveToStorage.archiveAsset c9env true c9state).trace ∧
    ArchiveToStorage.AOp.deleteFileSet "fsW2" ∈
      (ArchiveToStorage.archiveAsset c9env true c9state).trace ∧
    ArchiveToStorage.AOp.unlinkOp "/src/d/a1" ∈
      (ArchiveToStorage.archiveAsset c9env true c9state).trace ∧
    ArchiveToStorage.AOp.unlinkOp "/src/d/a2" ∉
      (ArchiveToStorage.archiveAsset c9env true c9state).trace ∧
    ArchiveToStorage.AOp.statExists "/src/d/a2" ∉
      (ArchiveToStorage.archiveAsset c9env true c9state).trace := by
  refine ⟨by decide, by decide, by decide, by decide, by decide, by decide⟩

/-- **C9 (amended)**: in migration step 6, a failure deleting one source
file-set record is logged as a warning and does not prevent the DELETE
requests for the remaining source file sets (every one is issued); a
failure deleting one source disk file, however, is an uncaught exception
that aborts the item, so the remaining source disk files are not
processed; with no unlink failures the disk loop never aborts. -/
theorem C9_retirement_failure_isolation_amended :
    (∀ (env : ArchiveToStorage.AEnv) (fss : List ArchiveToStorage.AFileSet)
        (cache : List String) (st : ArchiveToStorage.AState),
      ((ArchiveToStorage.deleteFileSetsLoop env true fss cache st).2.2).filter
          ArchiveToStorage.isFsDeleteOp =
        fss.map (fun fs => ArchiveToStorage.AOp.deleteFileSet fs.id)) ∧
    (∀ (env : ArchiveToStorage.AEnv) (f : ArchiveToStorage.AFile)
        (rest : List ArchiveToStorage.AFile) (st : ArchiveToStorage.AState),
      (ArchiveToStorage.diskGet st.disk
        (FixCollection.pjoin3 env.sourceMountPath f.directory_path f.name)).isSome
          = true →
      env.unlinkFails
        (FixCollection.pjoin3 env.sourceMountPath f.directory_path f.name) = true →
      ArchiveToStorage.unlinkLoop env true (f :: rest) st =
        (st,
         [ArchiveToStorage.AOp.statExists
            (FixCollection.pjoin3 env.sourceMountPath f.directory_path f.name),
          ArchiveToStorage.AOp.unlinkOp
            (FixCollection.pjoin3 env.sourceMountPath f.directory_path f.name)],
         true)) ∧
    (∀ (env : ArchiveToStorage.AEnv) (live : Bool),
      (∀ q, env.unlinkFails q = false) →
      ∀ (l : List ArchiveToStorage.AFile) (st : ArchiveToStorage.AState),
        (ArchiveToStorage.unlinkLoop env live l st).2.2 = false) :=
  ⟨fun env fss cache st => ArchiveToStorage.deleteLoop_fsdeletes_all env fss cache st,
   fun env f rest st hex hfail =>
     ArchiveToStorage.unlinkLoop_abort_on_failure env f rest st hex hfail,
   fun env live huf l st =>
     ArchiveToStorage.unlinkLoop_no_failure_no_throw env live huf l st⟩

/-- Witness for the amended C9 at concrete inputs. -/
theorem C9_retirement_failure_isolation_amended_witness :
    ((ArchiveToStorage.deleteFileSetsLoop c9env true
        [⟨"fsW1", "W", "fm1", "d/", "a1", "ACTIVE"⟩,
         ⟨"fsW2", "W", "fm1", "d/", "a2", "ACTIVE"⟩] ["W"] c9state).2.2).filter
      ArchiveToStorage.isFsDeleteOp =
      [ArchiveToStorage.AOp.deleteFileSet "fsW1",
       ArchiveToStorage.AOp.deleteFileSet "fsW2"] ∧
    ArchiveToStorage.unlinkLoop c9env true
        [⟨"fW1", "W", "d", "a1", 3⟩, ⟨"fW2", "W", "d", "a2", 4⟩] c9state =
      (c9state,
       [ArchiveToStorage.AOp.statExists "/src/d/a1",
        ArchiveToStorage.AOp.unlinkOp "/src/d/a1"], true) := by
  constructor
  · rw [C9_retirement_failure_isolation_amended.1 c9env
      [⟨"fsW1", "W", "fm1", "d/", "a1", "ACTIVE"⟩,
       ⟨"fsW2", "W", "fm1", "d/", "a2", "ACTIVE"⟩] ["W"] c9state]
    decide
  · exact C9_retirement_failure_isolation_amended.2.1 c9env
      ⟨"fW1", "W", "d", "a1", 3⟩ [⟨"fW2", "W", "d", "a2", 4⟩] c9state
      (by decide) (by decide)

namespace ArchiveToStorage

theorem ensure_flag_mode (env : AEnv) (dp : String) (spOpt : Option String)
    (s : AState) (hcw : ∀ n, env.copyWrite n = n) :
    (ensureOnArchiveDisk env true dp spOpt s).2.2 =
      (ensureOnArchiveDisk env false dp spOpt s).2.2 := by
  unfold ensureOnArchiveDisk
  by_cases h1 : (diskGet s.disk dp).isSome
  · simp [h1]
  · cases spOpt with
    | none => simp [h1]
    | some sp =>
      by_cases h2 : (diskGet s.disk sp).isSome
      · simp [h1, h2, hcw]
      · simp [h1, h2]

theorem ensure_exists_filter_mode (env : AEnv) (dp : String)
    (spOpt : Option String) (s : AState) (hcw : ∀ n, env.copyWrite n = n) :
    ((ensureOnArchiveDisk env true dp spOpt s).2.1).filter isExistsOp =
      ((ensureOnArchiveDisk env false dp spOpt s).2.1).filter isExistsOp := by
  unfold ensureOnArchiveDisk
  by_cases h1 : (diskGet s.disk dp).isSome
  · simp [h1]
  · cases spOpt with
    | none => simp [h1]
    | some sp =>
      by_cases h2 : (diskGet s.disk sp).isSome
      · simp [h1, h2, hcw, List.filter_cons, isExistsOp]
      · simp [h1, h2]

theorem efs_gets_filter (env : AEnv) (live : Bool) (o dp fn : String)
    (afs : Option AFileSet) (st : AState) :
    ((ensureArchiveFileSet env live o dp fn afs st).2.1).filter isGetOp =
      (match afs with
       | some _ => []
       | none => [AOp.getComponents o]) := by
  cases afs with
  | some fs => rfl
  | none =>
    cases live <;>
      simp [ensureArchiveFileSet, List.filter_cons, List.filter_append, isGetOp]

theorem efs_exists_filter (env : AEnv) (live : Bool) (o dp fn : String)
    (afs : Option AFileSet) (st : AState) :
    ((ensureArchiveFileSet env live o dp fn afs st).2.1).filter isExistsOp = [] := by
  cases afs with
  | some fs => rfl
  | none =>
    cases live <;>
      simp [ensureArchiveFileSet, List.filter_cons, List.filter_append, isExistsOp]

theorem efr_gets_filter (env : AEnv) (live : Bool) (afr sf : Option AFile)
    (fsid dp fn adp : String) (st : AState) :
    ((ensureArchiveFileRecord env live afr sf fsid dp fn adp st).2).filter
      isGetOp = [] := by
  cases afr with
  | some f => rfl
  | none =>
    cases hd : diskGet st.disk adp with
    | none =>
      cases live <;>
        simp [ensureArchiveFileRecord, hd, List.filter_cons, List.filter_append,
          isGetOp]
    | some n =>
      cases live <;>
        simp [ensureArchiveFileRecord, hd, List.filter_cons, List.filter_append,
          isGetOp]

theorem efr_exists_filter (env : AEnv) (live : Bool) (afr sf : Option AFile)
    (fsid dp fn adp : String) (st : AState) :
    ((ensureArchiveFileRecord env live afr sf fsid dp fn adp st).2).filter
      isExistsOp =
      (match afr with
       | some _ => []
       | none => [AOp.statExists adp]) := by
  cases afr with
  | some f => rfl
  | none =>
    cases hd : diskGet st.disk adp with
    | none =>
      cases live <;>
        simp [ensureArchiveFileRecord, hd, List.filter_cons, List.filter_append,
          isExistsOp]
    | some n =>
      cases live <;>
        simp [ensureArchiveFileRecord, hd, List.filter_cons, List.filter_append,
          isExistsOp]

theorem patchLoop_ops : ∀ (l : List AFormat) (st : AState),
    (patchFormatsLoop l st).2 =
      l.map (fun f => AOp.patchFormatStatus f.id "ARCHIVED") := by
  intro l
  induction l with
  | nil => intro st; rfl
  | cons f rest ih =>
    intro st
    unfold patchFormatsLoop
    simp [ih]

theorem deleteLoop_gets_mode (env : AEnv) :
    ∀ (fss : List AFileSet) (cache : List String) (st st' : AState),
      ((deleteFileSetsLoop env true fss cache st).2.2).filter isGetOp =
        ((deleteFileSetsLoop env false fss cache st').2.2).filter isGetOp := by
  intro fss
  induction fss with
  | nil => intro cache st st'; rfl
  | cons fs rest ih =>
    intro cache st st'
    unfold deleteFileSetsLoop getStorageC
    by_cases hc : fs.storage_id ∈ cache
    · by_cases hd : env.deleteFails fs.id <;>
        simp [hc, hd, List.filter_append, List.filter_cons, isGetOp, ih _ _ st']
    · by_cases hd : env.deleteFails fs.id <;>
        simp [hc, hd, List.filter_append, List.filter_cons, isGetOp, ih _ _ st']

theorem deleteLoop_exists_filter (env : AEnv) (live : Bool) :
    ∀ (fss : List AFileSet) (cache : List String) (st : AState),
      ((deleteFileSetsLoop env live fss cache st).2.2).filter isExistsOp = [] := by
  intro fss
  induction fss with
  | nil => intro cache st; rfl
  | cons fs rest ih =>
    intro cache st
    unfold deleteFileSetsLoop getStorageC
    cases live with
    | false =>
      by_cases hc : fs.storage_id ∈ cache <;>
        simp [hc, List.filter_append, List.filter_cons, isExistsOp, ih]
    | true =>
      by_cases hc : fs.storage_id ∈ cache <;>
        by_cases hd : env.deleteFails fs.id <;>
          simp [hc, hd, List.filter_append, List.filter_cons, isExistsOp, ih]

theorem unlink_gets_filter (env : AEnv) (live : Bool) :
    ∀ (l : List AFile) (st : AState),
      ((unlinkLoop env live l st).2.1).filter isGetOp = [] := by
  intro l
  induction l with
  | nil => intro st; rfl
  | cons f rest ih =>
    intro st
    unfold unlinkLoop
    by_cases hex : (diskGet st.disk
        (FixCollection.pjoin3 env.sourceMountPath f.directory_path f.name)).isSome
    · cases live with
      | false => simp [hex, List.filter_cons, isGetOp, ih]
      | true =>
        by_cases hf : env.unlinkFails
            (FixCollection.pjoin3 env.sourceMountPath f.directory_path f.name) <;>
          simp [hex, hf, List.filter_cons, isGetOp, ih]
    · simp [hex, List.filter_cons, isGetOp, ih]

theorem unlink_exists_filter (env : AEnv) (live : Bool)
    (huf : ∀ q, env.unlinkFails q = false) :
    ∀ (l : List AFile) (st : AState),
      ((unlinkLoop env live l st).2.1).filter isExistsOp =
        l.map (fun f => AOp.statExists
          (FixCollection.pjoin3 env.sourceMountPath f.directory_path f.name)) := by
  intro l
  induction l with
  | nil => intro st; rfl
  | cons f rest ih =>
    intro st
    unfold unlinkLoop
    by_cases hex : (diskGet st.disk
        (FixCollection.pjoin3 env.sourceMountPath f.directory_path f.name)).isSome
    · cases live with
      | false => simp [hex, List.filter_cons, isExistsOp, ih]
      | true => simp [hex, huf, List.filter_cons, isExistsOp, ih]
    · simp [hex, List.filter_cons, isExistsOp, ih]

end ArchiveToStorage

namespace ArchiveToStorage

theorem deleteLoop_gets_canonical (env : AEnv) (live : Bool) :
    ∀ (fss : List AFileSet) (cache : List String) (st : AState),
      ((deleteFileSetsLoop env live fss cache st).2.2).filter isGetOp =
        deleteLoopGets fss cache := by
  intro fss
  induction fss with
  | nil => intro cache st; rfl
  | cons fs rest ih =>
    intro cache st
    unfold deleteFileSetsLoop deleteLoopGets getStorageC
    cases live with
    | false =>
      by_cases hc : fs.storage_id ∈ cache <;>
        simp [hc, List.filter_append, List.filter_cons, isGetOp, ih,
          ArchiveToStorage.getStorageC]
    | true =>
      by_cases hc : fs.storage_id ∈ cache <;>
        by_cases hd : env.deleteFails fs.id <;>
          simp [hc, hd, List.filter_append, List.filter_cons, isGetOp, ih,
            ArchiveToStorage.getStorageC]

theorem patch_ops_filter_gets (l : List AFormat) (st : AState) :
    ((AOp.patchAssetStatus "ARCHIVED" :: (patchFormatsLoop l st).2).filter
      isGetOp) = [] := by
  rw [patchLoop_ops, List.filter_cons]
  simp [List.filter_map, isGetOp, Function.comp]

theorem patch_ops_filter_exists (l : List AFormat) (st : AState) :
    ((AOp.patchAssetStatus "ARCHIVED" :: (patchFormatsLoop l st).2).filter
      isExistsOp) = [] := by
  rw [patchLoop_ops, List.filter_cons]
  simp [List.filter_map, isExistsOp, Function.comp]

end ArchiveToStorage

/-- **C7 (amended)**: for a fixed external state with a faithful copy and
no unlink failures, dry-run and live mode issue the same remote GET
sequence and the same local existence-check sequence; only the size-stat
reads of the live copy-verification path (and the writes themselves)
differ between the modes. -/
theorem C7_read_symmetry_amended
    (env : ArchiveToStorage.AEnv) (s : ArchiveToStorage.AState)
    (hcw : ∀ n, env.copyWrite n = n)
    (huf : ∀ q, env.unlinkFails q = false) :
    ((ArchiveToStorage.archiveAsset env true s).trace).filter
        ArchiveToStorage.isGetOp =
      ((ArchiveToStorage.archiveAsset env false s).trace).filter
        ArchiveToStorage.isGetOp ∧
    ((ArchiveToStorage.archiveAsset env true s).trace).filter
        ArchiveToStorage.isExistsOp =
      ((ArchiveToStorage.archiveAsset env false s).trace).filter
        ArchiveToStorage.isExistsOp := by
  unfold ArchiveToStorage.archiveAsset
  dsimp only
  cases hofmt : (match s.formats.find? (fun f => f.name = "ORIGINAL") with
    | some f => some f
    | none => s.formats.head?) with
  | none => exact ⟨rfl, rfl⟩
  | some origFmt =>
    dsimp only
    cases href : (match s.files.find?
        (fun f : ArchiveToStorage.AFile =>
          ¬ f.storage_id = env.archiveStorageId) with
      | some f => some f
      | none =>
        match s.files.find?
            (fun f : ArchiveToStorage.AFile =>
              f.storage_id = env.archiveStorageId) with
        | some f => some f
        | none => s.files.head?) with
    | none => exact ⟨rfl, rfl⟩
    | some ref =>
      dsimp only
      rw [ArchiveToStorage.ensure_flag_mode env _ _ s hcw]
      cases hflag : (ArchiveToStorage.ensureOnArchiveDisk env false
          (FixCollection.pjoin3 env.archiveMountPath ref.directory_path ref.name)
          (Option.map
            (fun f => FixCollection.pjoin3 env.sourceMountPath
              f.directory_path f.name)
            (s.files.find? (fun f : ArchiveToStorage.AFile =>
              ¬ f.storage_id = env.archiveStorageId))) s).2.2 with
      | some b =>
        dsimp only
        constructor
        · simp only [List.filter_append]
          rw [ArchiveToStorage.ensure_filter_eq_nil env true _ _ s _
            (fun _ => rfl) (fun _ => rfl) (fun _ => rfl) (fun _ _ => rfl)]
          rw [ArchiveToStorage.ensure_filter_eq_nil env false _ _ s _
            (fun _ => rfl) (fun _ => rfl) (fun _ => rfl) (fun _ _ => rfl)]
        · simp only [List.filter_append]
          rw [ArchiveToStorage.ensure_exists_filter_mode env _ _ s hcw]
      | none =>
        dsimp only
        rw [ArchiveToStorage.unlinkLoop_no_failure_no_throw env true huf,
            ArchiveToStorage.unlinkLoop_no_failure_no_throw env false huf]
        simp only [Bool.false_eq_true, if_false, if_true]
        constructor
        · simp only [List.filter_append]
          rw [ArchiveToStorage.ensure_filter_eq_nil env true _ _ s _
            (fun _ => rfl) (fun _ => rfl) (fun _ => rfl) (fun _ _ => rfl)]
          rw [ArchiveToStorage.ensure_filter_eq_nil env false _ _ s _
            (fun _ => rfl) (fun _ => rfl) (fun _ => rfl) (fun _ _ => rfl)]
          rw [ArchiveToStorage.efs_gets_filter env true origFmt.id _ _ _ _]
          rw [ArchiveToStorage.efs_gets_filter env false origFmt.id _ _ _ _]
          rw [ArchiveToStorage.efr_gets_filter env true _ _ _ _ _ _ _]
          rw [ArchiveToStorage.efr_gets_filter env false _ _ _ _ _ _ _]
          rw [ArchiveToStorage.patch_ops_filter_gets]
          rw [ArchiveToStorage.deleteLoop_gets_canonical env true]
          rw [ArchiveToStorage.deleteLoop_gets_canonical env false]
          rw [ArchiveToStorage.unlink_gets_filter env true]
          rw [ArchiveToStorage.unlink_gets_filter env false]
          simp
        · simp only [List.filter_append]
          rw [ArchiveToStorage.ensure_exists_filter_mode env _ _ s hcw]
          rw [ArchiveToStorage.efs_exists_filter env true origFmt.id _ _ _ _]
          rw [ArchiveToStorage.efs_exists_filter env false origFmt.id _ _ _ _]
          rw [ArchiveToStorage.efr_exists_filter env true _ _ _ _ _ _ _]
          rw [ArchiveToStorage.efr_exists_filter env false _ _ _ _ _ _ _]
          rw [ArchiveToStorage.patch_ops_filter_exists]
          rw [ArchiveToStorage.deleteLoop_exists_filter env true]
          rw [ArchiveToStorage.deleteLoop_exists_filter env false]
          rw [ArchiveToStorage.unlink_exists_filter env true huf]
          rw [ArchiveToStorage.unlink_exists_filter env false huf]
          simp

/-- **C7 counterexample**: on the same input, live mode's read sequence
is not the dry-run read sequence: the copy-verification size stats (and
the post-copy size stat of the record-creation step) are performed only
in live mode. -/
theorem C7_counterexample :
    ((ArchiveToStorage.archiveAsset c7env true c7state).trace).filter
        ArchiveToStorage.isReadOp ≠
      ((ArchiveToStorage.archiveAsset c7env false c7state).trace).filter
        ArchiveToStorage.isReadOp ∧
    ArchiveToStorage.AOp.statSize "/src/d/a.mov" ∈
      ((ArchiveToStorage.archiveAsset c7env true c7state).trace).filter
        ArchiveToStorage.isReadOp ∧
    ArchiveToStorage.AOp.statSize "/src/d/a.mov" ∉
      ((ArchiveToStorage.archiveAsset c7env false c7state).trace).filter
        ArchiveToStorage.isReadOp := by
  refine ⟨by decide, by decide, by decide⟩

/-- Witness for the amended C7 at a concrete input. -/
theorem C7_read_symmetry_amended_witness :
    ((ArchiveToStorage.archiveAsset c7env true c7state).trace).filter
        ArchiveToStorage.isGetOp =
      ((ArchiveToStorage.archiveAsset c7env false c7state).trace).filter
        ArchiveToStorage.isGetOp ∧
    ((ArchiveToStorage.archiveAsset c7env true c7state).trace).filter
        ArchiveToStorage.isExistsOp =
      ((ArchiveToStorage.archiveAsset c7env false c7state).trace).filter
        ArchiveToStorage.isExistsOp :=
  C7_read_symmetry_amended c7env c7state (fun _ => rfl) (fun _ => rfl)


namespace ArchiveToStorage

theorem ensure_nondisk_fields (env : AEnv) (live : Bool) (dp : String)
    (spOpt : Option String) (st : AState) :
    (ensureOnArchiveDisk env live dp spOpt st).1.formats = st.formats ∧
    (ensureOnArchiveDisk env live dp spOpt st).1.fileSets = st.fileSets ∧
    (ensureOnArchiveDisk env live dp spOpt st).1.files = st.files ∧
    (ensureOnArchiveDisk env live dp spOpt st).1.assetStatus = st.assetStatus ∧
    (ensureOnArchiveDisk env live dp spOpt st).1.nextId = st.nextId := by
  unfold ensureOnArchiveDisk
  dsimp only
  repeat' split
  all_goals exact ⟨rfl, rfl, rfl, rfl, rfl⟩

theorem ensure_dest_exists (env : AEnv) (live : Bool) (dp : String)
    (spOpt : Option String) (st : AState)
    (h : (diskGet st.disk dp).isSome = true) :
    ensureOnArchiveDisk env live dp spOpt st =
      (st, [AOp.statExists dp, AOp.statSize dp], none) := by
  unfold ensureOnArchiveDisk
  rw [if_pos h]

theorem ensure_success_dest (env : AEnv) (dp : String)
    (spOpt : Option String) (st : AState)
    (h : (ensureOnArchiveDisk env true dp spOpt st).2.2 = none) :
    (diskGet (ensureOnArchiveDisk env true dp spOpt st).1.disk dp).isSome
      = true := by
  cases spOpt with
  | none =>
    unfold ensureOnArchiveDisk at h ⊢
    by_cases h1 : (diskGet st.disk dp).isSome
    · rw [if_pos h1]
      exact h1
    · rw [if_neg h1] at h
      simp at h
  | some sp =>
    unfold ensureOnArchiveDisk at h ⊢
    dsimp only at h ⊢
    by_cases h1 : (diskGet st.disk dp).isSome
    · rw [if_pos h1]
      exact h1
    · rw [if_neg h1] at h ⊢
      by_cases h2 : (diskGet st.disk sp).isSome
      · rw [if_pos h2, if_pos rfl]
        split <;> simp [diskGet_diskSet_self]
      · rw [if_neg h2] at h
        simp at h

theorem ensure_fail_state_ops (env : AEnv) (dp : String)
    (spOpt : Option String) (st : AState) (hcw : ∀ n, env.copyWrite n = n)
    (b : Bool) (h : (ensureOnArchiveDisk env true dp spOpt st).2.2 = some b) :
    (ensureOnArchiveDisk env true dp spOpt st).1 = st ∧
    ∀ op ∈ (ensureOnArchiveDisk env true dp spOpt st).2.1,
      ∃ q, op = AOp.statExists q := by
  cases spOpt with
  | none =>
    unfold ensureOnArchiveDisk at h ⊢
    by_cases h1 : (diskGet st.disk dp).isSome
    · rw [if_pos h1] at h
      simp at h
    · rw [if_neg h1]
      refine ⟨rfl, ?_⟩
      intro op hop
      rcases List.mem_singleton.mp hop with rfl
      exact ⟨dp, rfl⟩
  | some sp =>
    unfold ensureOnArchiveDisk at h ⊢
    dsimp only at h ⊢
    by_cases h1 : (diskGet st.disk dp).isSome
    · rw [if_pos h1] at h
      simp at h
    · rw [if_neg h1] at h ⊢
      by_cases h2 : (diskGet st.disk sp).isSome
      · rw [if_pos h2, if_pos rfl] at h
        rw [hcw, if_pos rfl] at h
        simp at h
      · rw [if_neg h2]
        refine ⟨rfl, ?_⟩
        intro op hop
        rcases List.mem_cons.mp hop with rfl | hop2
        · exact ⟨dp, rfl⟩
        · rcases List.mem_singleton.mp hop2 with rfl
          exact ⟨sp, rfl⟩

theorem efs_state_shape (env : AEnv) (live : Bool) (o d fn : String)
    (afs : Option AFileSet) (st : AState) :
    (ensureArchiveFileSet env live o d fn afs st).1.files = st.files ∧
    (ensureArchiveFileSet env live o d fn afs st).1.formats = st.formats ∧
    (ensureArchiveFileSet env live o d fn afs st).1.disk = st.disk ∧
    (ensureArchiveFileSet env live o d fn afs st).1.assetStatus
      = st.assetStatus ∧
    ∃ ext, (ensureArchiveFileSet env live o d fn afs st).1.fileSets =
      st.fileSets ++ ext ∧
      (∀ g ∈ ext, g.storage_id = env.archiveStorageId) ∧
      (afs = none → live = true → ext ≠ []) := by
  cases afs with
  | some fs =>
    refine ⟨rfl, rfl, rfl, rfl, [], by simp [ensureArchiveFileSet], by simp,
      fun h => by cases h⟩
  | none =>
    cases live with
    | false =>
      refine ⟨rfl, rfl, rfl, rfl, [], by simp [ensureArchiveFileSet], by simp,
        fun _ h => by cases h⟩
    | true =>
      refine ⟨rfl, rfl, rfl, rfl,
        [⟨"gen-" ++ toString st.nextId, env.archiveStorageId, o,
          ensureSlash d, fn, "ACTIVE"⟩], rfl, ?_, fun _ _ => by simp⟩
      intro g hg
      rcases List.mem_singleton.mp hg with rfl
      rfl

theorem efr_state_shape (env : AEnv) (live : Bool) (afr sf : Option AFile)
    (fsid d fn adp : String) (st : AState) :
    (ensureArchiveFileRecord env live afr sf fsid d fn adp st).1.fileSets =
      st.fileSets ∧
    (ensureArchiveFileRecord env live afr sf fsid d fn adp st).1.formats =
      st.formats ∧
    (ensureArchiveFileRecord env live afr sf fsid d fn adp st).1.disk =
      st.disk ∧
    (ensureArchiveFileRecord env live afr sf fsid d fn adp st).1.assetStatus =
      st.assetStatus ∧
    ∃ ext, (ensureArchiveFileRecord env live afr sf fsid d fn adp st).1.files =
      st.files ++ ext ∧
      (∀ g ∈ ext, g.storage_id = env.archiveStorageId) ∧
      (afr = none → live = true → ext ≠ []) := by
  cases afr with
  | some f =>
    refine ⟨rfl, rfl, rfl, rfl, [], by simp [ensureArchiveFileRecord], by simp,
      fun h => by cases h⟩
  | none =>
    cases live with
    | false =>
      refine ⟨?_, ?_, ?_, ?_, [], ?_, by simp, fun _ h => by cases h⟩ <;>
        simp [ensureArchiveFileRecord]
    | true =>
      refine ⟨?_, ?_, ?_, ?_,
        [⟨"gen-" ++ toString st.nextId, env.archiveStorageId,
          ensureSlash d, fn,
          match diskGet st.disk adp with
          | some n => n
          | none => match sf with | some f => f.size | none => 0⟩], ?_, ?_,
        fun _ _ => by simp⟩
      · simp [ensureArchiveFileRecord]
      · simp [ensureArchiveFileRecord]
      · simp [ensureArchiveFileRecord]
      · simp [ensureArchiveFileRecord]
      · simp [ensureArchiveFileRecord]
      · intro g hg
        rcases List.mem_singleton.mp hg with rfl
        rfl

end ArchiveToStorage


namespace ArchiveToStorage

theorem map_id_of_eq {α : Type} (f : α → α) :
    ∀ l : List α, (∀ a ∈ l, f a = a) → l.map f = l := by
  intro l
  induction l with
  | nil => intro _; rfl
  | cons x xs ih =>
    intro h
    simp only [List.map_cons]
    rw [h x (List.mem_cons_self x xs),
      ih (fun a ha => h a (List.mem_cons_of_mem x ha))]

theorem map_map_eq {α : Type} (f g h : α → α) :
    ∀ l : List α, (∀ a ∈ l, g (f a) = h a) →
      (l.map f).map g = l.map h := by
  intro l
  induction l with
  | nil => intro _; rfl
  | cons x xs ih =>
    intro hp
    simp only [List.map_cons]
    rw [hp x (List.mem_cons_self x xs),
      ih (fun a ha => hp a (List.mem_cons_of_mem x ha))]

theorem efs_some (env : AEnv) (live : Bool) (o d fn : String) (fs : AFileSet)
    (st : AState) :
    ensureArchiveFileSet env live o d fn (some fs) st = (st, [], fs.id) := rfl

theorem efr_some (env : AEnv) (live : Bool) (f : AFile) (sf : Option AFile)
    (fsid d fn adp : String) (st : AState) :
    ensureArchiveFileRecord env live (some f) sf fsid d fn adp st =
      (st, []) := rfl

theorem astate_set_status_self (t : AState) (v : String)
    (h : t.assetStatus = v) : ({ t with assetStatus := v } : AState) = t := by
  cases t
  simp only at h
  rw [h]

theorem patchLoop_state : ∀ (l : List AFormat) (st : AState),
    (patchFormatsLoop l st).1 =
      { st with
        formats := st.formats.map (fun g =>
            if g.id ∈ l.map AFormat.id
            then { g with archive_status := "ARCHIVED" } else g) } := by
  intro l
  induction l with
  | nil =>
    intro st
    have hm : st.formats.map (fun g =>
        if g.id ∈ ([] : List AFormat).map AFormat.id
        then { g with archive_status := "ARCHIVED" } else g) = st.formats :=
      map_id_of_eq _ _ (fun a _ => by simp)
    rw [hm]
    rfl
  | cons f rest ih =>
    intro st
    unfold patchFormatsLoop
    dsimp only
    rw [ih]
    congr 1
    refine map_map_eq _ _ _ _ ?_
    intro a _
    by_cases hid : a.id = f.id
    · by_cases hmem : a.id ∈ rest.map AFormat.id <;>
        simp [hid, hmem, List.mem_cons]
    · by_cases hmem : a.id ∈ rest.map AFormat.id <;>
        simp [hid, hmem, List.mem_cons]

theorem patchLoop_noop (l : List AFormat) (st : AState)
    (h : ∀ g ∈ st.formats, g.archive_status = "ARCHIVED") :
    (patchFormatsLoop l st).1 = st := by
  rw [patchLoop_state]
  have hm : st.formats.map (fun g =>
      if g.id ∈ l.map AFormat.id
      then { g with archive_status := "ARCHIVED" } else g) = st.formats := by
    refine map_id_of_eq _ _ ?_
    intro a ha
    have h3 := h a ha
    by_cases hmem : a.id ∈ l.map AFormat.id
    · obtain ⟨aid, aname, ast⟩ := a
      simp only at h3
      simp [hmem, h3]
    · simp [hmem]
  rw [hm]

theorem deleteLoop_state (env : AEnv) (hdf : ∀ i, env.deleteFails i = false) :
    ∀ (fss : List AFileSet) (cache : List String) (st : AState),
      (deleteFileSetsLoop env true fss cache st).1 =
        { st with
          fileSets := st.fileSets.map (fun g =>
              if g.id ∈ fss.map AFileSet.id
              then { g with status := "DELETED" } else g) } := by
  intro fss
  induction fss with
  | nil =>
    intro cache st
    have hm : st.fileSets.map (fun g =>
        if g.id ∈ ([] : List AFileSet).map AFileSet.id
        then { g with status := "DELETED" } else g) = st.fileSets :=
      map_id_of_eq _ _ (fun a _ => by simp)
    rw [hm]
    rfl
  | cons fs rest ih =>
    intro cache st
    unfold deleteFileSetsLoop
    dsimp only
    rw [if_pos rfl, hdf fs.id]
    simp only [Bool.false_eq_true, if_false]
    rw [ih]
    congr 1
    refine map_map_eq _ _ _ _ ?_
    intro a _
    by_cases hid : a.id = fs.id
    · by_cases hmem : a.id ∈ rest.map AFileSet.id <;>
        simp [hid, hmem, List.mem_cons]
    · by_cases hmem : a.id ∈ rest.map AFileSet.id <;>
        simp [hid, hmem, List.mem_cons]

theorem deleteLoop_noop (env : AEnv) (hdf : ∀ i, env.deleteFails i = false)
    (fss : List AFileSet) (cache : List String) (st : AState)
    (hall : ∀ g ∈ st.fileSets, g.id ∈ fss.map AFileSet.id →
      g.status = "DELETED") :
    (deleteFileSetsLoop env true fss cache st).1 = st := by
  rw [deleteLoop_state env hdf]
  have hm : st.fileSets.map (fun g =>
      if g.id ∈ fss.map AFileSet.id
      then { g with status := "DELETED" } else g) = st.fileSets := by
    refine map_id_of_eq _ _ ?_
    intro a ha
    by_cases hmem : a.id ∈ fss.map AFileSet.id
    · have h3 := hall a ha hmem
      obtain ⟨aid, asid, afid, abd, anm, ast⟩ := a
      simp only at h3
      simp [hmem, h3]
    · simp [hmem]
  rw [hm]

theorem deleteLoop_filter_clean (env : AEnv) (live : Bool) (p : AOp → Bool)
    (hg : ∀ q, p (AOp.getStorage q) = false)
    (hd : ∀ q, p (AOp.deleteFileSet q) = false) :
    ∀ (fss : List AFileSet) (cache : List String) (st : AState),
      ((deleteFileSetsLoop env live fss cache st).2.2).filter p = [] := by
  intro fss
  induction fss with
  | nil => intro cache st; rfl
  | cons fs rest ih =>
    intro cache st
    unfold deleteFileSetsLoop getStorageC
    by_cases hc : fs.storage_id ∈ cache
    · by_cases hdd : env.deleteFails fs.id <;>
        cases live <;>
        simp [hc, hdd, List.filter_append, List.filter_cons, hg, hd, ih]
    · by_cases hdd : env.deleteFails fs.id <;>
        cases live <;>
        simp [hc, hdd, List.filter_append, List.filter_cons, hg, hd, ih]

theorem unlink_fields (env : AEnv) (live : Bool) :
    ∀ (l : List AFile) (st : AState),
      (unlinkLoop env live l st).1.formats = st.formats ∧
      (unlinkLoop env live l st).1.fileSets = st.fileSets ∧
      (unlinkLoop env live l st).1.files = st.files ∧
      (unlinkLoop env live l st).1.assetStatus = st.assetStatus ∧
      (unlinkLoop env live l st).1.nextId = st.nextId := by
  intro l
  induction l with
  | nil => intro st; exact ⟨rfl, rfl, rfl, rfl, rfl⟩
  | cons f rest ih =>
    intro st
    unfold unlinkLoop
    dsimp only
    by_cases he : (diskGet st.disk
        (FixCollection.pjoin3 env.sourceMountPath f.directory_path
          f.name)).isSome
    · rw [if_pos he]
      cases live with
      | false => exact ih st
      | true =>
        by_cases hu : env.unlinkFails
            (FixCollection.pjoin3 env.sourceMountPath f.directory_path f.name)
        · rw [if_pos rfl, if_pos hu]
          exact ⟨rfl, rfl, rfl, rfl, rfl⟩
        · rw [if_pos rfl, if_neg hu]
          exact ih _
    · rw [if_neg he]
      exact ih st

theorem unlink_disk (env : AEnv)
    (huf : ∀ q, env.unlinkFails q = false) :
    ∀ (l : List AFile) (st : AState),
      (unlinkLoop env true l st).1.disk =
        l.foldl (fun d f => diskDel d
          (FixCollection.pjoin3 env.sourceMountPath f.directory_path f.name))
          st.disk := by
  intro l
  induction l with
  | nil => intro st; rfl
  | cons f rest ih =>
    intro st
    unfold unlinkLoop
    dsimp only
    by_cases he : (diskGet st.disk
        (FixCollection.pjoin3 env.sourceMountPath f.directory_path
          f.name)).isSome
    · rw [if_pos he, if_pos rfl,
        huf (FixCollection.pjoin3 env.sourceMountPath f.directory_path f.name)]
      simp only [Bool.false_eq_true, if_false]
      rw [ih, List.foldl_cons]
    · rw [if_neg he, ih, List.foldl_cons]
      have habs : diskDel st.disk
          (FixCollection.pjoin3 env.sourceMountPath f.directory_path f.name)
          = st.disk := by
        apply diskDel_absent
        cases hq : diskGet st.disk
            (FixCollection.pjoin3 env.sourceMountPath f.directory_path f.name)
        · rfl
        · rw [hq] at he; simp at he
      rw [habs]

theorem unlink_noop (env : AEnv) (live : Bool) :
    ∀ (l : List AFile) (st : AState),
      (∀ f ∈ l, diskGet st.disk
        (FixCollection.pjoin3 env.sourceMountPath f.directory_path f.name)
          = none) →
      unlinkLoop env live l st =
        (st, l.map (fun f => AOp.statExists
          (FixCollection.pjoin3 env.sourceMountPath f.directory_path f.name)),
          false) := by
  intro l
  induction l with
  | nil => intro st _; rfl
  | cons f rest ih =>
    intro st hall
    unfold unlinkLoop
    dsimp only
    have hn := hall f (List.mem_cons_self f rest)
    rw [hn]
    simp only [Option.isSome_none, Bool.false_eq_true, if_false]
    rw [ih st (fun g hg => hall g (List.mem_cons_of_mem f hg))]
    rfl

theorem foldl_del_get (path : AFile → String) :
    ∀ (l : List AFile) (d : List (String × Nat)) (q : String),
      diskGet (l.foldl (fun d f => diskDel d (path f)) d) q =
        if q ∈ l.map path then none else diskGet d q := by
  intro l
  induction l with
  | nil => intro d q; simp
  | cons f rest ih =>
    intro d q
    rw [List.foldl_cons, ih]
    by_cases hq : q = path f
    · have hcons : q ∈ (f :: rest).map path := by
        simp [List.map_cons, List.mem_cons, hq]
      rw [if_pos hcons]
      by_cases hmem : q ∈ rest.map path
      · rw [if_pos hmem]
      · rw [if_neg hmem, hq]
        exact diskGet_diskDel_self _ _
    · have hcons : (q ∈ (f :: rest).map path) ↔ (q ∈ rest.map path) := by
        simp [List.map_cons, List.mem_cons, hq]
      by_cases hmem : q ∈ rest.map path
      · rw [if_pos hmem, if_pos (hcons.mpr hmem)]
      · rw [if_neg hmem, if_neg (fun hh => hmem (hcons.mp hh)),
          diskGet_diskDel_other _ _ hq]

theorem discover_snoc_arch (env : AEnv) (f : AFile)
    (hf : f.storage_id = env.archiveStorageId) :
    ∀ (l : List AFile) (srcIds cache : List String),
      (discoverSourceStorages env (l ++ [f]) srcIds cache).1 =
        (discoverSourceStorages env l srcIds cache).1 := by
  intro l
  induction l with
  | nil =>
    intro srcIds cache
    rw [List.nil_append]
    unfold discoverSourceStorages
    dsimp only
    cases hs : env.storages f.storage_id with
    | none => simp [discoverSourceStorages]
    | some srec => simp [hf, discoverSourceStorages]
  | cons g rest ih =>
    intro srcIds cache
    rw [List.cons_append]
    unfold discoverSourceStorages
    dsimp only
    exact ih _ _

theorem discover_append_arch (env : AEnv) (ext : List AFile)
    (hext : ∀ g ∈ ext, g.storage_id = env.archiveStorageId) :
    ∀ (l : List AFile) (srcIds cache : List String),
      (discoverSourceStorages env (l ++ ext) srcIds cache).1 =
        (discoverSourceStorages env l srcIds cache).1 := by
  induction ext with
  | nil => intro l srcIds cache; rw [List.append_nil]
  | cons e ext' ih =>
    intro l srcIds cache
    have h1 : l ++ e :: ext' = (l ++ [e]) ++ ext' := by simp
    rw [h1, ih (fun g hg => hext g (List.mem_cons_of_mem e hg)) (l ++ [e]),
      discover_snoc_arch env e (hext e (List.mem_cons_self e ext'))]

theorem discover_arch_not_mem (env : AEnv) :
    ∀ (l : List AFile) (srcIds cache : List String),
      env.archiveStorageId ∉ srcIds →
      env.archiveStorageId ∉ (discoverSourceStorages env l srcIds cache).1 := by
  intro l
  induction l with
  | nil => intro srcIds cache h; exact h
  | cons f rest ih =>
    intro srcIds cache h
    unfold discoverSourceStorages
    dsimp only
    cases hs : env.storages f.storage_id with
    | none => simpa [hs] using ih _ _ h
    | some srec =>
      by_cases hp : srec.purpose = "ARCHIVE"
      · simpa [hs, hp] using ih _ _ h
      · by_cases ha : f.storage_id = env.archiveStorageId
        · simpa [hs, hp, ha] using ih _ _ h
        · by_cases hm : f.storage_id ∈ srcIds
          · simpa [hs, hp, ha, hm] using ih _ _ h
          · have h2 : env.archiveStorageId ∉ srcIds ++ [f.storage_id] := by
              intro hmem
              rcases List.mem_append.mp hmem with h3 | h3
              · exact h h3
              · exact ha (List.mem_singleton.mp h3).symm
            simpa [hs, hp, ha, hm] using ih _ _ h2

theorem refFile_mem (files : List AFile) (p1 p2 : AFile → Bool)
    (ref : AFile)
    (h : (match files.find? p1 with
      | some f => some f
      | none =>
        match files.find? p2 with
        | some f => some f
        | none => files.head?) = some ref) : ref ∈ files := by
  cases h1 : files.find? p1 with
  | some f =>
    rw [h1] at h
    have h' : f = ref := by simpa using h
    rw [← h']
    exact List.mem_of_find?_eq_some h1
  | none =>
    rw [h1] at h
    cases h2 : files.find? p2 with
    | some f =>
      rw [h2] at h
      have h' : f = ref := by simpa using h
      rw [← h']
      exact List.mem_of_find?_eq_some h2
    | none =>
      rw [h2] at h
      cases files with
      | nil => cases h
      | cons x xs =>
        have h' : x = ref := by simpa using h
        rw [← h']
        exact List.mem_cons_self _ _

end ArchiveToStorage

namespace ArchiveToStorage

theorem aa_none_fmt (env : AEnv) (live : Bool) (s : AState)
    (h : (match s.formats.find? (fun f => f.name = "ORIGINAL") with
      | some f => some f
      | none => s.formats.head?) = none) :
    archiveAsset env live s =
      ⟨s, [AOp.getAsset, AOp.getFiles, AOp.getFileSets, AOp.getFormats],
        .ok false⟩ := by
  unfold archiveAsset
  dsimp only
  rw [h]

theorem aa_none_ref (env : AEnv) (live : Bool) (s : AState) (ofmt : AFormat)
    (hofmt : (match s.formats.find? (fun f => f.name = "ORIGINAL") with
      | some f => some f
      | none => s.formats.head?) = some ofmt)
    (h : (match s.files.find?
        (fun f : AFile => ¬ f.storage_id = env.archiveStorageId) with
      | some f => some f
      | none =>
        match s.files.find?
            (fun f : AFile => f.storage_id = env.archiveStorageId) with
        | some f => some f
        | none => s.files.head?) = none) :
    archiveAsset env live s =
      ⟨s, [AOp.getAsset, AOp.getFiles, AOp.getFileSets, AOp.getFormats] ++
          (discoverSourceStorages env s.files [] []).2.2,
        .ok false⟩ := by
  unfold archiveAsset
  dsimp only
  rw [hofmt]
  dsimp only
  rw [h]

theorem aa_e1_fail (env : AEnv) (live : Bool) (s : AState) (ofmt : AFormat)
    (ref : AFile) (b : Bool)
    (hofmt : (match s.formats.find? (fun f => f.name = "ORIGINAL") with
      | some f => some f
      | none => s.formats.head?) = some ofmt)
    (href : (match s.files.find?
        (fun f : AFile => ¬ f.storage_id = env.archiveStorageId) with
      | some f => some f
      | none =>
        match s.files.find?
            (fun f : AFile => f.storage_id = env.archiveStorageId) with
        | some f => some f
        | none => s.files.head?) = some ref)
    (h : (ensureOnArchiveDisk env live
        (FixCollection.pjoin3 env.archiveMountPath ref.directory_path ref.name)
        ((s.files.find?
          (fun f : AFile => ¬ f.storage_id = env.archiveStorageId)).map
          (fun f => FixCollection.pjoin3 env.sourceMountPath f.directory_path
            f.name))
        s).2.2 = some b) :
    archiveAsset env live s =
      ⟨(ensureOnArchiveDisk env live
          (FixCollection.pjoin3 env.archiveMountPath ref.directory_path
            ref.name)
          ((s.files.find?
            (fun f : AFile => ¬ f.storage_id = env.archiveStorageId)).map
            (fun f => FixCollection.pjoin3 env.sourceMountPath f.directory_path
              f.name))
          s).1,
        ([AOp.getAsset, AOp.getFiles, AOp.getFileSets, AOp.getFormats] ++
          (discoverSourceStorages env s.files [] []).2.2) ++
          (ensureOnArchiveDisk env live
            (FixCollection.pjoin3 env.archiveMountPath ref.directory_path
              ref.name)
            ((s.files.find?
              (fun f : AFile => ¬ f.storage_id = env.archiveStorageId)).map
              (fun f => FixCollection.pjoin3 env.sourceMountPath
                f.directory_path f.name))
            s).2.1,
        .ok b⟩ := by
  unfold archiveAsset
  dsimp only
  rw [hofmt]
  dsimp only
  rw [href]
  dsimp only
  rw [h]

end ArchiveToStorage

namespace ArchiveToStorage

theorem aa_success_state (env : AEnv) (s : AState) (ofmt : AFormat)
    (ref : AFile)
    (hofmt : (match s.formats.find? (fun f => f.name = "ORIGINAL") with
      | some f => some f
      | none => s.formats.head?) = some ofmt)
    (href : (match s.files.find?
        (fun f : AFile => ¬ f.storage_id = env.archiveStorageId) with
      | some f => some f
      | none =>
        match s.files.find?
            (fun f : AFile => f.storage_id = env.archiveStorageId) with
        | some f => some f
        | none => s.files.head?) = some ref)
    (he1 : (ensureOnArchiveDisk env true
        (FixCollection.pjoin3 env.archiveMountPath ref.directory_path ref.name)
        ((s.files.find?
          (fun f : AFile => ¬ f.storage_id = env.archiveStorageId)).map
          (fun f => FixCollection.pjoin3 env.sourceMountPath f.directory_path
            f.name))
        s).2.2 = none) :
    (archiveAsset env true s).state =
      (unlinkLoop env true
        (s.files.filter (fun f =>
          f.storage_id ∈ (discoverSourceStorages env s.files [] []).1))
        (deleteFileSetsLoop env true
          (s.fileSets.filter (fun fs =>
            fs.storage_id ∈ (discoverSourceStorages env s.files [] []).1))
          (discoverSourceStorages env s.files [] []).2.1
          (patchFormatsLoop s.formats
            { (ensureArchiveFileRecord env true
                (s.files.find?
                  (fun f : AFile => f.storage_id = env.archiveStorageId))
                (s.files.find?
                  (fun f : AFile => ¬ f.storage_id = env.archiveStorageId))
                (ensureArchiveFileSet env true ofmt.id ref.directory_path
                  ref.name
                  (s.fileSets.find?
                    (fun fs : AFileSet =>
                      fs.storage_id = env.archiveStorageId))
                  (ensureOnArchiveDisk env true
                    (FixCollection.pjoin3 env.archiveMountPath
                      ref.directory_path ref.name)
                    ((s.files.find?
                      (fun f : AFile =>
                        ¬ f.storage_id = env.archiveStorageId)).map
                      (fun f => FixCollection.pjoin3 env.sourceMountPath
                        f.directory_path f.name))
                    s).1).2.2
                ref.directory_path ref.name
                (FixCollection.pjoin3 env.archiveMountPath ref.directory_path
                  ref.name)
                (ensureArchiveFileSet env true ofmt.id ref.directory_path
                  ref.name
                  (s.fileSets.find?
                    (fun fs : AFileSet =>
                      fs.storage_id = env.archiveStorageId))
                  (ensureOnArchiveDisk env true
                    (FixCollection.pjoin3 env.archiveMountPath
                      ref.directory_path ref.name)
                    ((s.files.find?
                      (fun f : AFile =>
                        ¬ f.storage_id = env.archiveStorageId)).map
                      (fun f => FixCollection.pjoin3 env.sourceMountPath
                        f.directory_path f.name))
                    s).1).1).1
              with assetStatus := "ARCHIVED" }).1).1).1 := by
  unfold archiveAsset
  dsimp only
  rw [hofmt]
  dsimp only
  rw [href]
  dsimp only
  rw [he1]
  dsimp only
  rw [if_pos rfl]
  split <;> rfl

end ArchiveToStorage

namespace ArchiveToStorage

theorem archiveAsset_rerun_noop (env : AEnv) (t : AState) (ofmt : AFormat)
    (ref : AFile)
    (hdf : ∀ i, env.deleteFails i = false)
    (hofmt : (match t.formats.find? (fun f => f.name = "ORIGINAL") with
      | some f => some f
      | none => t.formats.head?) = some ofmt)
    (href : (match t.files.find?
        (fun f : AFile => ¬ f.storage_id = env.archiveStorageId) with
      | some f => some f
      | none =>
        match t.files.find?
            (fun f : AFile => f.storage_id = env.archiveStorageId) with
        | some f => some f
        | none => t.files.head?) = some ref)
    (hdest : (diskGet t.disk (FixCollection.pjoin3 env.archiveMountPath
      ref.directory_path ref.name)).isSome = true)
    (hafs : (t.fileSets.find?
      (fun fs : AFileSet => fs.storage_id = env.archiveStorageId)).isSome
        = true)
    (hafr : (t.files.find?
      (fun f : AFile => f.storage_id = env.archiveStorageId)).isSome = true)
    (hstat : t.assetStatus = "ARCHIVED")
    (hfmts : ∀ g ∈ t.formats, g.archive_status = "ARCHIVED")
    (hdel : ∀ g ∈ t.fileSets,
      g.id ∈ (t.fileSets.filter (fun fs : AFileSet =>
        fs.storage_id ∈ (discoverSourceStorages env t.files [] []).1)).map
          AFileSet.id →
      g.status = "DELETED")
    (hfl : ∀ f ∈ t.files,
      f.storage_id ∈ (discoverSourceStorages env t.files [] []).1 →
      diskGet t.disk (FixCollection.pjoin3 env.sourceMountPath
        f.directory_path f.name) = none) :
    (archiveAsset env true t).state = t ∧
    ((archiveAsset env true t).trace).filter isCopyOp = [] ∧
    ((archiveAsset env true t).trace).filter isPostFileSetOp = [] ∧
    ((archiveAsset env true t).trace).filter isPostFileOp = [] := by
  obtain ⟨afs, hafs'⟩ := Option.isSome_iff_exists.mp hafs
  obtain ⟨afr, hafr'⟩ := Option.isSome_iff_exists.mp hafr
  have hfl' : ∀ f ∈ t.files.filter (fun f =>
      f.storage_id ∈ (discoverSourceStorages env t.files [] []).1),
      diskGet t.disk (FixCollection.pjoin3 env.sourceMountPath
        f.directory_path f.name) = none := by
    intro f hf
    have h2 := List.mem_filter.mp hf
    exact hfl f h2.1 (by simpa using h2.2)
  unfold archiveAsset
  dsimp only
  rw [hofmt]
  dsimp only
  rw [href]
  dsimp only
  rw [ensure_dest_exists env true _ _ t hdest]
  dsimp only
  rw [hafs', efs_some]
  dsimp only
  rw [hafr', efr_some]
  dsimp only
  rw [if_pos rfl]
  rw [astate_set_status_self t _ hstat]
  rw [patchLoop_noop t.formats t hfmts]
  rw [patchLoop_ops]
  rw [deleteLoop_noop env hdf _ _ t hdel]
  rw [unlink_noop env true _ t hfl']
  dsimp only
  simp only [Bool.false_eq_true, if_false]
  refine ⟨trivial, ?_, ?_, ?_⟩
  · simp only [List.filter_append]
    rw [discover_filter_eq_nil env _ (fun _ => rfl),
      deleteLoop_filter_clean env true _ (fun _ => rfl) (fun _ => rfl)]
    simp [List.filter_cons, List.filter_map, Function.comp, isCopyOp]
  · simp only [List.filter_append]
    rw [discover_filter_eq_nil env _ (fun _ => rfl),
      deleteLoop_filter_clean env true _ (fun _ => rfl) (fun _ => rfl)]
    simp [List.filter_cons, List.filter_map, Function.comp, isPostFileSetOp]
  · simp only [List.filter_append]
    rw [discover_filter_eq_nil env _ (fun _ => rfl),
      deleteLoop_filter_clean env true _ (fun _ => rfl) (fun _ => rfl)]
    simp [List.filter_cons, List.filter_map, Function.comp, isPostFileOp]

end ArchiveToStorage

namespace ArchiveToStorage

theorem find?_append_some {α : Type} (p : α → Bool) (l2 : List α) (a : α) :
    ∀ l1 : List α, l1.find? p = some a → (l1 ++ l2).find? p = some a := by
  intro l1
  induction l1 with
  | nil => intro h; cases h
  | cons x xs ih =>
    intro h
    rw [List.find?_cons] at h
    rw [List.cons_append, List.find?_cons]
    cases hp : p x with
    | true => rw [hp] at h; exact h
    | false => rw [hp] at h; exact ih h

theorem find?_append_none {α : Type} (p : α → Bool) (l2 : List α) :
    ∀ l1 : List α, l1.find? p = none →
      (l1 ++ l2).find? p = l2.find? p := by
  intro l1
  induction l1 with
  | nil => intro _; rfl
  | cons x xs ih =>
    intro h
    rw [List.find?_cons] at h
    rw [List.cons_append, List.find?_cons]
    cases hp : p x with
    | true => rw [hp] at h; cases h
    | false => rw [hp] at h; exact ih h

theorem find?_map_isSome {α : Type} (f : α → α) (p : α → Bool)
    (hpf : ∀ a, p (f a) = p a) :
    ∀ l : List α, ((l.map f).find? p).isSome = (l.find? p).isSome := by
  intro l
  induction l with
  | nil => rfl
  | cons x xs ih =>
    rw [List.map_cons, List.find?_cons, List.find?_cons, hpf x]
    cases hp : p x with
    | true => rfl
    | false => exact ih

end ArchiveToStorage

namespace ArchiveToStorage

theorem fsMark_id (ids : List String) (a : AFileSet) :
    (if a.id ∈ ids then { a with status := "DELETED" } else a).id = a.id := by
  by_cases hm : a.id ∈ ids <;> simp [hm]

theorem fsMark_storage (ids : List String) (a : AFileSet) :
    (if a.id ∈ ids then { a with status := "DELETED" } else a).storage_id =
      a.storage_id := by
  by_cases hm : a.id ∈ ids <;> simp [hm]

theorem fsMark_status (ids : List String) (a : AFileSet) (h : a.id ∈ ids) :
    (if a.id ∈ ids then { a with status := "DELETED" } else a).status =
      "DELETED" := by
  simp [h]

theorem aa_idem (env : AEnv) (s : AState)
    (hcw : ∀ n, env.copyWrite n = n)
    (hdf : ∀ i, env.deleteFails i = false)
    (huf : ∀ q, env.unlinkFails q = false)
    (halias : ∀ f ∈ s.files, ∀ g ∈ s.files,
      FixCollection.pjoin3 env.sourceMountPath f.directory_path f.name ≠
        FixCollection.pjoin3 env.archiveMountPath g.directory_path g.name) :
    (archiveAsset env true (archiveAsset env true s).state).state =
      (archiveAsset env true s).state ∧
    ((archiveAsset env true (archiveAsset env true s).state).trace).filter
      isCopyOp = [] ∧
    ((archiveAsset env true (archiveAsset env true s).state).trace).filter
      isPostFileSetOp = [] ∧
    ((archiveAsset env true (archiveAsset env true s).state).trace).filter
      isPostFileOp = [] := by
  cases hofmt : (match s.formats.find? (fun f => f.name = "ORIGINAL") with
      | some f => some f
      | none => s.formats.head?) with
  | none =>
    rw [aa_none_fmt env true s hofmt]
    dsimp only
    rw [aa_none_fmt env true s hofmt]
    exact ⟨rfl, rfl, rfl, rfl⟩
  | some ofmt =>
    cases href : (match s.files.find?
        (fun f : AFile => ¬ f.storage_id = env.archiveStorageId) with
      | some f => some f
      | none =>
        match s.files.find?
            (fun f : AFile => f.storage_id = env.archiveStorageId) with
        | some f => some f
        | none => s.files.head?) with
    | none =>
      rw [aa_none_ref env true s ofmt hofmt href]
      dsimp only
      rw [aa_none_ref env true s ofmt hofmt href]
      refine ⟨rfl, ?_, ?_, ?_⟩
      all_goals
        simp only [List.filter_append]
        rw [discover_filter_eq_nil env _ (fun _ => rfl)]
        rfl
    | some ref =>
      cases he1 : (ensureOnArchiveDisk env true
          (FixCollection.pjoin3 env.archiveMountPath ref.directory_path
            ref.name)
          ((s.files.find?
            (fun f : AFile => ¬ f.storage_id = env.archiveStorageId)).map
            (fun f => FixCollection.pjoin3 env.sourceMountPath
              f.directory_path f.name))
          s).2.2 with
      | some b =>
        obtain ⟨hst, hops⟩ := ensure_fail_state_ops env _ _ s hcw b he1
        have hens : ∀ p : AOp → Bool, (∀ q, p (AOp.statExists q) = false) →
            List.filter p ((ensureOnArchiveDisk env true
              (FixCollection.pjoin3 env.archiveMountPath ref.directory_path
                ref.name)
              ((s.files.find?
                (fun f : AFile => ¬ f.storage_id = env.archiveStorageId)).map
                (fun f => FixCollection.pjoin3 env.sourceMountPath
                  f.directory_path f.name))
              s).2.1) = [] := by
          intro p hp
          refine List.filter_eq_nil_iff.mpr ?_
          intro op hop
          obtain ⟨q, rfl⟩ := hops op hop
          simp [hp]
        rw [aa_e1_fail env true s ofmt ref b hofmt href he1]
        dsimp only
        rw [hst]
        rw [aa_e1_fail env true s ofmt ref b hofmt href he1]
        refine ⟨hst, ?_, ?_, ?_⟩
        · dsimp only
          simp only [List.filter_append]
          rw [discover_filter_eq_nil env _ (fun _ => rfl),
            hens isCopyOp (fun _ => rfl)]
          rfl
        · dsimp only
          simp only [List.filter_append]
          rw [discover_filter_eq_nil env _ (fun _ => rfl),
            hens isPostFileSetOp (fun _ => rfl)]
          rfl
        · dsimp only
          simp only [List.filter_append]
          rw [discover_filter_eq_nil env _ (fun _ => rfl),
            hens isPostFileOp (fun _ => rfl)]
          rfl
      | none =>
        have hT := aa_success_state env s ofmt ref hofmt href he1
        obtain ⟨E1, hE1⟩ : ∃ x, (ensureOnArchiveDisk env true
            (FixCollection.pjoin3 env.archiveMountPath ref.directory_path
              ref.name)
            ((s.files.find?
              (fun f : AFile => ¬ f.storage_id = env.archiveStorageId)).map
              (fun f => FixCollection.pjoin3 env.sourceMountPath
                f.directory_path f.name))
            s).1 = x := ⟨_, rfl⟩
        have hE1fm : E1.formats = s.formats := by
          rw [← hE1]; exact (ensure_nondisk_fields env true _ _ s).1
        have hE1fs : E1.fileSets = s.fileSets := by
          rw [← hE1]; exact (ensure_nondisk_fields env true _ _ s).2.1
        have hE1fi : E1.files = s.files := by
          rw [← hE1]; exact (ensure_nondisk_fields env true _ _ s).2.2.1
        have hE1dest : (diskGet E1.disk (FixCollection.pjoin3
            env.archiveMountPath ref.directory_path ref.name)).isSome
            = true := by
          rw [← hE1]; exact ensure_success_dest env _ _ s he1
        rw [hE1] at hT
        obtain ⟨hE2fi, hE2fm, hE2dk, hE2as, ext, hE2fs, hextP, hextNE⟩ :=
          efs_state_shape env true ofmt.id ref.directory_path ref.name
            (s.fileSets.find?
              (fun fs : AFileSet => fs.storage_id = env.archiveStorageId)) E1
        obtain ⟨E2, hE2⟩ : ∃ x, ensureArchiveFileSet env true ofmt.id
            ref.directory_path ref.name
            (s.fileSets.find?
              (fun fs : AFileSet => fs.storage_id = env.archiveStorageId))
            E1 = x := ⟨_, rfl⟩
        rw [hE2] at hE2fi hE2fm hE2dk hE2as hE2fs
        rw [hE2] at hT
        obtain ⟨hE3fs, hE3fm, hE3dk, hE3as, ext2, hE3fi, hext2P, hext2NE⟩ :=
          efr_state_shape env true
            (s.files.find?
              (fun f : AFile => f.storage_id = env.archiveStorageId))
            (s.files.find?
              (fun f : AFile => ¬ f.storage_id = env.archiveStorageId))
            E2.2.2 ref.directory_path ref.name
            (FixCollection.pjoin3 env.archiveMountPath ref.directory_path
              ref.name)
            E2.1
        obtain ⟨E3, hE3⟩ : ∃ x, ensureArchiveFileRecord env true
            (s.files.find?
              (fun f : AFile => f.storage_id = env.archiveStorageId))
            (s.files.find?
              (fun f : AFile => ¬ f.storage_id = env.archiveStorageId))
            E2.2.2 ref.directory_path ref.name
            (FixCollection.pjoin3 env.archiveMountPath ref.directory_path
              ref.name)
            E2.1 = x := ⟨_, rfl⟩
        rw [hE3] at hE3fs hE3fm hE3dk hE3as hE3fi
        rw [hE3] at hT
        obtain ⟨P4, hP4⟩ : ∃ x, (patchFormatsLoop s.formats
            { E3.1 with assetStatus := "ARCHIVED" }).1 = x := ⟨_, rfl⟩
        have hP4eq : P4 = { E3.1 with
            assetStatus := "ARCHIVED",
            formats := E3.1.formats.map (fun g =>
              if g.id ∈ s.formats.map AFormat.id
              then { g with archive_status := "ARCHIVED" } else g) } := by
          rw [← hP4, patchLoop_state]
        have hP4fm : P4.formats = E3.1.formats.map (fun g =>
            if g.id ∈ s.formats.map AFormat.id
            then { g with archive_status := "ARCHIVED" } else g) := by
          rw [hP4eq]
        have hP4fs : P4.fileSets = E3.1.fileSets := by rw [hP4eq]
        have hP4fi : P4.files = E3.1.files := by rw [hP4eq]
        have hP4dk : P4.disk = E3.1.disk := by rw [hP4eq]
        have hP4as : P4.assetStatus = "ARCHIVED" := by rw [hP4eq]
        rw [hP4] at hT
        obtain ⟨D5, hD5⟩ : ∃ x, (deleteFileSetsLoop env true
            (s.fileSets.filter (fun fs =>
              fs.storage_id ∈ (discoverSourceStorages env s.files [] []).1))
            (discoverSourceStorages env s.files [] []).2.1 P4).1
            = x := ⟨_, rfl⟩
        have hD5eq : D5 = { P4 with
            fileSets := P4.fileSets.map (fun g =>
              if g.id ∈ (s.fileSets.filter (fun fs =>
                fs.storage_id ∈
                  (discoverSourceStorages env s.files [] []).1)).map
                  AFileSet.id
              then { g with status := "DELETED" } else g) } := by
          rw [← hD5, deleteLoop_state env hdf]
        have hD5fm : D5.formats = P4.formats := by rw [hD5eq]
        have hD5fs : D5.fileSets = P4.fileSets.map (fun g =>
            if g.id ∈ (s.fileSets.filter (fun fs =>
              fs.storage_id ∈
                (discoverSourceStorages env s.files [] []).1)).map
                AFileSet.id
            then { g with status := "DELETED" } else g) := by
          rw [hD5eq]
        have hD5fi : D5.files = P4.files := by rw [hD5eq]
        have hD5dk : D5.disk = P4.disk := by rw [hD5eq]
        have hD5as : D5.assetStatus = P4.assetStatus := by rw [hD5eq]
        rw [hD5] at hT
        obtain ⟨hU6fm, hU6fs, hU6fi, hU6as, hU6ni⟩ := unlink_fields env true
          (s.files.filter (fun f =>
            f.storage_id ∈ (discoverSourceStorages env s.files [] []).1)) D5
        have hU6dk := unlink_disk env huf
          (s.files.filter (fun f =>
            f.storage_id ∈ (discoverSourceStorages env s.files [] []).1)) D5
        obtain ⟨U6, hU6⟩ : ∃ x, (unlinkLoop env true
            (s.files.filter (fun f =>
              f.storage_id ∈ (discoverSourceStorages env s.files [] []).1))
            D5).1 = x := ⟨_, rfl⟩
        rw [hU6] at hU6fm hU6fs hU6fi hU6as hU6dk
        rw [hU6] at hT
        have hTfm : U6.formats = s.formats.map (fun g =>
            if g.id ∈ s.formats.map AFormat.id
            then { g with archive_status := "ARCHIVED" } else g) := by
          rw [hU6fm, hD5fm, hP4fm, hE3fm, hE2fm, hE1fm]
        have hTfs : U6.fileSets = (s.fileSets ++ ext).map (fun g =>
            if g.id ∈ (s.fileSets.filter (fun fs =>
              fs.storage_id ∈
                (discoverSourceStorages env s.files [] []).1)).map
                AFileSet.id
            then { g with status := "DELETED" } else g) := by
          rw [hU6fs, hD5fs, hP4fs, hE3fs, hE2fs, hE1fs]
        have hTfi : U6.files = s.files ++ ext2 := by
          rw [hU6fi, hD5fi, hP4fi, hE3fi, hE2fi, hE1fi]
        have hTas : U6.assetStatus = "ARCHIVED" := by
          rw [hU6as, hD5as, hP4as]
        have hTdk : U6.disk = (s.files.filter (fun f =>
            f.storage_id ∈ (discoverSourceStorages env s.files [] []).1)).foldl
            (fun d f => diskDel d (FixCollection.pjoin3 env.sourceMountPath
              f.directory_path f.name)) E1.disk := by
          rw [hU6dk, hD5dk, hP4dk, hE3dk, hE2dk]
        have hsrc2 : (discoverSourceStorages env U6.files [] []).1 =
            (discoverSourceStorages env s.files [] []).1 := by
          rw [hTfi]
          exact discover_append_arch env ext2 hext2P s.files [] []
        have harch : env.archiveStorageId ∉
            (discoverSourceStorages env s.files [] []).1 :=
          discover_arch_not_mem env s.files [] [] (List.not_mem_nil _)
        obtain ⟨ofmt2, hofmt2⟩ : ∃ o2,
            (match U6.formats.find? (fun f => f.name = "ORIGINAL") with
            | some f => some f
            | none => U6.formats.head?) = some o2 := by
          cases hm2 : (match U6.formats.find?
              (fun f => f.name = "ORIGINAL") with
            | some f => some f
            | none => U6.formats.head?) with
          | some o2 => exact ⟨o2, rfl⟩
          | none =>
            exfalso
            have hnil : U6.formats = [] := by
              cases hf2 : U6.formats.find? (fun f => f.name = "ORIGINAL") with
              | some x => rw [hf2] at hm2; cases hm2
              | none =>
                rw [hf2] at hm2
                exact List.head?_eq_none_iff.mp hm2
            have hsnil : s.formats = [] := by
              have h9 := hTfm
              rw [hnil] at h9
              exact List.map_eq_nil_iff.mp h9.symm
            rw [hsnil] at hofmt
            simp at hofmt
        have hextq : ext2.find?
            (fun f : AFile => ¬ f.storage_id = env.archiveStorageId)
            = none :=
          List.find?_eq_none.mpr (fun x hx => by simp [hext2P x hx])
        have href2 : (match U6.files.find?
            (fun f : AFile => ¬ f.storage_id = env.archiveStorageId) with
          | some f => some f
          | none =>
            match U6.files.find?
                (fun f : AFile => f.storage_id = env.archiveStorageId) with
            | some f => some f
            | none => U6.files.head?) = some ref := by
          cases hsf : s.files.find?
              (fun f : AFile => ¬ f.storage_id = env.archiveStorageId) with
          | some f =>
            have h1 : U6.files.find?
                (fun f : AFile => ¬ f.storage_id = env.archiveStorageId)
                = some f := by
              rw [hTfi]; exact find?_append_some _ _ _ _ hsf
            have h2 : f = ref := by rw [hsf] at href; simpa using href
            rw [h1, h2]
          | none =>
            have h1 : U6.files.find?
                (fun f : AFile => ¬ f.storage_id = env.archiveStorageId)
                = none := by
              rw [hTfi, find?_append_none _ _ _ hsf]
              exact hextq
            rw [h1]
            cases hafr0 : s.files.find?
                (fun f : AFile => f.storage_id = env.archiveStorageId) with
            | some a =>
              have h3 : U6.files.find?
                  (fun f : AFile => f.storage_id = env.archiveStorageId)
                  = some a := by
                rw [hTfi]; exact find?_append_some _ _ _ _ hafr0
              have h4 : a = ref := by
                rw [hsf] at href
                rw [hafr0] at href
                simpa using href
              rw [h3, h4]
            | none =>
              exfalso
              have hall1 := List.find?_eq_none.mp hsf
              have hall2 := List.find?_eq_none.mp hafr0
              cases hfl0 : s.files with
              | nil =>
                rw [hsf] at href
                rw [hafr0] at href
                rw [hfl0] at href
                simp at href
              | cons x xs =>
                have hxmem : x ∈ s.files := by
                  rw [hfl0]; exact List.mem_cons_self _ _
                have c1 := hall1 x hxmem
                have c2 := hall2 x hxmem
                simp at c1 c2
                exact c2 c1
        have hrefmem : ref ∈ s.files := refFile_mem s.files _ _ ref href
        have hdp_not : FixCollection.pjoin3 env.archiveMountPath
            ref.directory_path ref.name ∉
            (s.files.filter (fun f =>
              f.storage_id ∈
                (discoverSourceStorages env s.files [] []).1)).map
              (fun f => FixCollection.pjoin3 env.sourceMountPath
                f.directory_path f.name) := by
          intro hmem
          obtain ⟨f, hfmem, hfe⟩ := List.mem_map.mp hmem
          exact halias f (List.mem_filter.mp hfmem).1 ref hrefmem hfe
        have hdest2 : (diskGet U6.disk (FixCollection.pjoin3
            env.archiveMountPath ref.directory_path ref.name)).isSome
            = true := by
          rw [hTdk, foldl_del_get, if_neg hdp_not]
          exact hE1dest
        have hpsi : ∀ a : AFileSet,
            (fun fs : AFileSet =>
              decide (fs.storage_id = env.archiveStorageId))
              ((fun g : AFileSet =>
                if g.id ∈ (s.fileSets.filter (fun fs =>
                  fs.storage_id ∈
                    (discoverSourceStorages env s.files [] []).1)).map
                    AFileSet.id
                then { g with status := "DELETED" } else g) a) =
            (fun fs : AFileSet =>
              decide (fs.storage_id = env.archiveStorageId)) a := by
          intro a
          by_cases hm : a.id ∈ (s.fileSets.filter (fun fs =>
              fs.storage_id ∈
                (discoverSourceStorages env s.files [] []).1)).map
              AFileSet.id
          · simp [hm]
          · simp [hm]
        have hafs2 : (U6.fileSets.find?
            (fun fs : AFileSet =>
              fs.storage_id = env.archiveStorageId)).isSome = true := by
          rw [hTfs, find?_map_isSome _ _ hpsi]
          cases hafs0 : s.fileSets.find?
              (fun fs : AFileSet =>
                fs.storage_id = env.archiveStorageId) with
          | some u =>
            rw [find?_append_some _ _ _ _ hafs0]
            rfl
          | none =>
            have hne := hextNE hafs0 rfl
            obtain ⟨y, ys, hext0⟩ := List.exists_cons_of_ne_nil hne
            rw [find?_append_none _ _ _ hafs0, hext0]
            have hy : y.storage_id = env.archiveStorageId :=
              hextP y (by rw [hext0]; exact List.mem_cons_self _ _)
            simp [List.find?_cons, hy]
        have hafr2 : (U6.files.find?
            (fun f : AFile =>
              f.storage_id = env.archiveStorageId)).isSome = true := by
          rw [hTfi]
          cases hafr0 : s.files.find?
              (fun f : AFile => f.storage_id = env.archiveStorageId) with
          | some u =>
            rw [find?_append_some _ _ _ _ hafr0]
            rfl
          | none =>
            have hne := hext2NE hafr0 rfl
            obtain ⟨y, ys, hext0⟩ := List.exists_cons_of_ne_nil hne
            rw [find?_append_none _ _ _ hafr0, hext0]
            have hy : y.storage_id = env.archiveStorageId :=
              hext2P y (by rw [hext0]; exact List.mem_cons_self _ _)
            simp [List.find?_cons, hy]
        have hfmts2 : ∀ g ∈ U6.formats, g.archive_status = "ARCHIVED" := by
          rw [hTfm]
          intro g hg
          obtain ⟨a, ha, rfl⟩ := List.mem_map.mp hg
          have hmem : a.id ∈ s.formats.map AFormat.id :=
            List.mem_map_of_mem _ ha
          simp [hmem]
        have hdel2 : ∀ g ∈ U6.fileSets,
            g.id ∈ (U6.fileSets.filter (fun fs : AFileSet =>
              fs.storage_id ∈
                (discoverSourceStorages env U6.files [] []).1)).map
                AFileSet.id →
            g.status = "DELETED" := by
          rw [hsrc2, hTfs]
          intro g hg hgid
          obtain ⟨g0, hg0, rfl⟩ := List.mem_map.mp hg
          obtain ⟨h, hhmem, hhid⟩ := List.mem_map.mp hgid
          obtain ⟨hhmem2, hhp⟩ := List.mem_filter.mp hhmem
          obtain ⟨h0, hh0, rfl⟩ := List.mem_map.mp hhmem2
          rw [fsMark_storage] at hhp
          have hh0src : h0.storage_id ∈
              (discoverSourceStorages env s.files [] []).1 := by
            simpa using hhp
          rcases List.mem_append.mp hh0 with hh0s | hh0e
          · have hh0f : h0 ∈ s.fileSets.filter (fun fs =>
                fs.storage_id ∈
                  (discoverSourceStorages env s.files [] []).1) :=
              List.mem_filter.mpr ⟨hh0s, by simpa using hh0src⟩
            have hh0id : h0.id ∈ (s.fileSets.filter (fun fs =>
                fs.storage_id ∈
                  (discoverSourceStorages env s.files [] []).1)).map
                AFileSet.id :=
              List.mem_map_of_mem _ hh0f
            rw [fsMark_id, fsMark_id] at hhid
            rw [hhid] at hh0id
            exact fsMark_status _ g0 hh0id
          · rw [hextP h0 hh0e] at hh0src
            exact absurd hh0src harch
        have hfl2 : ∀ f ∈ U6.files,
            f.storage_id ∈ (discoverSourceStorages env U6.files [] []).1 →
            diskGet U6.disk (FixCollection.pjoin3 env.sourceMountPath
              f.directory_path f.name) = none := by
          intro f hf hfs
          rw [hsrc2] at hfs
          rw [hTfi] at hf
          rcases List.mem_append.mp hf with hf1 | hf2
          · have hmemSF : f ∈ s.files.filter (fun f =>
                f.storage_id ∈
                  (discoverSourceStorages env s.files [] []).1) :=
              List.mem_filter.mpr ⟨hf1, by simpa using hfs⟩
            rw [hTdk, foldl_del_get,
              if_pos (List.mem_map_of_mem _ hmemSF)]
          · rw [hext2P f hf2] at hfs
            exact absurd hfs harch
        have hnoop := archiveAsset_rerun_noop env U6 ofmt2 ref hdf hofmt2
          href2 hdest2 hafs2 hafr2 hTas hfmts2 hdel2 hfl2
        rw [hT]
        exact hnoop

end ArchiveToStorage

/-- Counterexample to **C3** as stated: with the archive mount nested
inside the source mount (`/s/x` inside `/s`), the destination path of the
reference file equals the source-mount path of another source file; the
first live run retires that source file, deleting the destination, so the
second live run — with no intervening external change — performs a file
copy, contradicting "the second run performs zero file-copy operations".
Both runs report success. -/
theorem C3_counterexample :
    (ArchiveToStorage.archiveAsset c3env true c3state).out =
      .ok true ∧
    (ArchiveToStorage.archiveAsset c3env true
        (ArchiveToStorage.archiveAsset c3env true c3state).state).out =
      .ok true ∧
    ((ArchiveToStorage.archiveAsset c3env true
        (ArchiveToStorage.archiveAsset c3env true c3state).state).trace).filter
      ArchiveToStorage.isCopyOp =
      [ArchiveToStorage.AOp.copyOp "/s/d/n" "/s/x/d/n"] ∧
    ((ArchiveToStorage.archiveAsset c3env true
        (ArchiveToStorage.archiveAsset c3env true c3state).state).trace).filter
      ArchiveToStorage.isCopyOp ≠ [] := by
  refine ⟨by decide, by decide, by decide, by decide⟩

/-- **C3** (amended): running the migration twice in live mode on the same
item with no intervening external change is idempotent, provided the copy
is faithful, no file-set DELETE or disk unlink fails, and no source-mount
file path coincides with an archive-mount destination path (no mount
aliasing): the second run reproduces the end state of the first and
performs zero file-copy operations, zero file-set-record creations and
zero file-record creations. -/
theorem C3_migration_idempotence_amended (env : ArchiveToStorage.AEnv)
    (s : ArchiveToStorage.AState)
    (hcw : ∀ n, env.copyWrite n = n)
    (hdf : ∀ i, env.deleteFails i = false)
    (huf : ∀ q, env.unlinkFails q = false)
    (halias : ∀ f ∈ s.files, ∀ g ∈ s.files,
      FixCollection.pjoin3 env.sourceMountPath f.directory_path f.name ≠
        FixCollection.pjoin3 env.archiveMountPath g.directory_path g.name) :
    (ArchiveToStorage.archiveAsset env true
        (ArchiveToStorage.archiveAsset env true s).state).state =
      (ArchiveToStorage.archiveAsset env true s).state ∧
    ((ArchiveToStorage.archiveAsset env true
        (ArchiveToStorage.archiveAsset env true s).state).trace).filter
      ArchiveToStorage.isCopyOp = [] ∧
    ((ArchiveToStorage.archiveAsset env true
        (ArchiveToStorage.archiveAsset env true s).state).trace).filter
      ArchiveToStorage.isPostFileSetOp = [] ∧
    ((ArchiveToStorage.archiveAsset env true
        (ArchiveToStorage.archiveAsset env true s).state).trace).filter
      ArchiveToStorage.isPostFileOp = [] :=
  ArchiveToStorage.aa_idem env s hcw hdf huf halias

/-- Witness for the amended C3: a plain migration with distinct mounts
satisfies the no-aliasing hypothesis, and rerunning it changes nothing
and issues no copy and no record creation. -/
theorem C3_migration_idempotence_amended_witness :
    (∀ f ∈ c3wstate.files, ∀ g ∈ c3wstate.files,
      FixCollection.pjoin3 c3wenv.sourceMountPath f.directory_path f.name ≠
        FixCollection.pjoin3 c3wenv.archiveMountPath g.directory_path
          g.name) ∧
    ((ArchiveToStorage.archiveAsset c3wenv true
        (ArchiveToStorage.archiveAsset c3wenv true c3wstate).state).state =
      (ArchiveToStorage.archiveAsset c3wenv true c3wstate).state ∧
    ((ArchiveToStorage.archiveAsset c3wenv true
        (ArchiveToStorage.archiveAsset c3wenv true c3wstate).state).trace).filter
      ArchiveToStorage.isCopyOp = [] ∧
    ((ArchiveToStorage.archiveAsset c3wenv true
        (ArchiveToStorage.archiveAsset c3wenv true c3wstate).state).trace).filter
      ArchiveToStorage.isPostFileSetOp = [] ∧
    ((ArchiveToStorage.archiveAsset c3wenv true
        (ArchiveToStorage.archiveAsset c3wenv true c3wstate).state).trace).filter
      ArchiveToStorage.isPostFileOp = []) :=
  ⟨by decide,
   C3_migration_idempotence_amended c3wenv c3wstate
     (fun _ => rfl) (fun _ => rfl) (fun _ => rfl) (by decide)⟩
